import Mathlib

/-!
# Verification of the Catan board/rule engine

A shallow embedding of the Python sources (`board.py`, `game.py`, `player.py`,
`cards.py`, `buildings.py`, `models.py`) of the settlement-building game
simulator, together with proofs and refutations of the specification's claims
about it.

Python `dict`s keyed by resources are embedded as a five-field structure
`ResMap`; Python object references are embedded as indices into owning lists
(players by position in the player list, plots/paths/hexagons by position in
the board's lists); Python sets that the code only extends are embedded as
duplicate-free lists in insertion order.
-/

set_option maxRecDepth 100000

namespace Catan

/-- The five resource kinds (`models.Resource`). -/
inductive Resource where
  | brick | ore | wood | wool | wheat
deriving DecidableEq, Repr

/-- The six terrain kinds (`models.Terrain`). -/
inductive Terrain where
  | hills | mountains | forests | pastures | fields | desert
deriving DecidableEq, Repr

/-- `models.Terrain.resource`: the resource a terrain produces (desert: none). -/
def Terrain.resource : Terrain → Option Resource
  | .hills => some .brick
  | .mountains => some .ore
  | .forests => some .wood
  | .pastures => some .wool
  | .fields => some .wheat
  | .desert => none

/-- Port kinds (`models.PortType`): 3:1 generic or 2:1 for one resource. -/
inductive PortKind where
  | threeAny
  | two (r : Resource)
deriving DecidableEq, Repr

/-- Development card kinds (`models.DevelopmentCardType`). -/
inductive DevCardKind where
  | monopoly | roadBuilding | invention | victoryPoint | knight
deriving DecidableEq, Repr

/-- Building kinds: the two `buildings.Building` subclasses. -/
inductive BKind where
  | settlement | city
deriving DecidableEq, Repr

/-- `Building.get_resource_multiplier`: 1 for a settlement, 2 for a city. -/
def BKind.multiplier : BKind → Nat
  | .settlement => 1
  | .city => 2

/-- A building occupying a plot: its owner (player index) and kind. -/
structure BuildingInfo where
  owner : Nat
  kind : BKind
deriving DecidableEq, Repr

/-- A resource-indexed map of counts: the embedding of the Python dicts
`{r: n for r in Resource}` held by `Bank` and `Player`. -/
structure ResMap where
  brick : Nat
  ore : Nat
  wood : Nat
  wool : Nat
  wheat : Nat
deriving DecidableEq, Repr

namespace ResMap

def get (m : ResMap) : Resource → Nat
  | .brick => m.brick
  | .ore => m.ore
  | .wood => m.wood
  | .wool => m.wool
  | .wheat => m.wheat

def set (m : ResMap) : Resource → Nat → ResMap
  | .brick, n => { m with brick := n }
  | .ore, n => { m with ore := n }
  | .wood, n => { m with wood := n }
  | .wool, n => { m with wool := n }
  | .wheat, n => { m with wheat := n }

/-- `m[r] += k` -/
def add (m : ResMap) (r : Resource) (k : Nat) : ResMap :=
  m.set r (m.get r + k)

/-- `m[r] -= k` (the embedded states only ever subtract what is present). -/
def sub (m : ResMap) (r : Resource) (k : Nat) : ResMap :=
  m.set r (m.get r - k)

/-- The all-zero map (`Player.__init__`). -/
def zero : ResMap := ⟨0, 0, 0, 0, 0⟩

/-- The bank's initial stock: 19 of each resource (`Bank.__init__`). -/
def bankInit : ResMap := ⟨19, 19, 19, 19, 19⟩

/-- `Player.get_total_resources` / `sum(self.resources.values())`. -/
def total (m : ResMap) : Nat :=
  m.brick + m.ore + m.wood + m.wool + m.wheat

instance : Inhabited ResMap := ⟨zero⟩

end ResMap

/-- Replace the element at index `i` by `f` of it; other positions unchanged.
Embeds an in-place mutation of one object in a Python list. -/
def updAt {α : Type} : List α → Nat → (α → α) → List α
  | [], _, _ => []
  | a :: l, 0, f => f a :: l
  | a :: l, n + 1, f => a :: updAt l n f

/-! ## The board graph

`board.Plot`, `board.Path` and `board.Hexagon` as they are used by the game
engine: plots and paths are referenced by their index in the board's lists. -/

/-- `board.Plot`: a vertex of the board graph. -/
structure APlot where
  building : Option BuildingInfo := none
  adjacentHexagons : List Nat := []
  adjacentPaths : List Nat := []
  adjacentPlots : List Nat := []
  port : Option PortKind := none
deriving DecidableEq, Repr

instance : Inhabited APlot := ⟨{}⟩

/-- `board.Path`: an edge of the board graph; `road` holds the owning player's
index when a road occupies it. -/
structure APath where
  plots : Nat × Nat
  road : Option Nat := none
  adjacentHexagons : List Nat := []
deriving DecidableEq, Repr

instance : Inhabited APath := ⟨{ plots := (0, 0) }⟩

/-- `board.Hexagon`: a terrain tile with its six plots and paths. -/
structure AHex where
  terrain : Option Terrain := none
  rollValue : Option Nat := none
  hasRobber : Bool := false
  plots : List Nat := []
  paths : List Nat := []
deriving DecidableEq, Repr

/-- `Hexagon.get_resource`. -/
def AHex.getResource (h : AHex) : Option Resource :=
  match h.terrain with
  | some t => t.resource
  | none => none

/-- The board graph (`board.Board`): hexagons, plots and paths by index. -/
structure ABoard where
  hexagons : List AHex := []
  plots : List APlot := []
  paths : List APath := []
deriving DecidableEq, Repr

/-- Dereference a plot index. -/
def ABoard.plotAt (b : ABoard) (i : Nat) : APlot := b.plots.getD i default

/-- Dereference a path index. -/
def ABoard.pathAt (b : ABoard) (i : Nat) : APath := b.paths.getD i default

/-- `Plot.is_occupied`. -/
def APlot.isOccupied (p : APlot) : Bool := p.building.isSome

/-- `Plot.has_adjacent_settlement`: some plot adjacent to `p` is occupied. -/
def hasAdjacentSettlement (b : ABoard) (p : APlot) : Bool :=
  p.adjacentPlots.any fun j => (b.plotAt j).isOccupied

/-- `Path.get_other_plot` restricted to an endpoint (the engine only calls it
with an endpoint of the path). -/
def APath.otherPlot (e : APath) (v : Nat) : Nat :=
  if v = e.plots.1 then e.plots.2 else e.plots.1

/-! ## Players and the game state -/

/-- One development card held by a player: its kind and its
`has_been_played` flag (`cards.DevelopmentCard`). -/
structure DevCard where
  kind : DevCardKind
  played : Bool := false
deriving DecidableEq, Repr

instance : Inhabited DevCard := ⟨{ kind := .knight }⟩

/-- `player.Player`: the identity of a player is its index in the game's
player list; buildings and roads are recorded as plot/path indices in
placement order. -/
structure GPlayer where
  resources : ResMap := ResMap.zero
  developmentCards : List DevCard := []
  cardsBoughtThisTurn : List Nat := []
  developmentCardPlayedThisTurn : Bool := false
  victoryPointCardsPlayed : Nat := 0
  knightsPlayed : Nat := 0
  hasLargestArmy : Bool := false
  hasLongestRoad : Bool := false
  availableSettlements : Nat := 5
  availableCities : Nat := 4
  availableRoads : Nat := 15
  settlements : List Nat := []
  cities : List Nat := []
  roads : List Nat := []
  freeRoadsRemaining : Nat := 0
deriving DecidableEq, Repr

instance : Inhabited GPlayer := ⟨{}⟩

/-- The game phases (`Game.phase`, a string in the source). -/
inductive Phase where
  | setup | rolling | main | endPhase
deriving DecidableEq, Repr

/-- `game.Game` together with the `game.Bank` it owns; the development deck
is the list of remaining card kinds, drawn from the tail end. -/
structure AGame where
  board : ABoard
  bank : ResMap := ResMap.bankInit
  deck : List DevCardKind := []
  players : List GPlayer := []
  currentPlayerIndex : Nat := 0
  turnNumber : Nat := 0
  phase : Phase := .setup
  winner : Option Nat := none
  setupRound : Nat := 1
  setupForward : Bool := true
  settlementsPlacedThisSetup : Nat := 0
deriving DecidableEq, Repr

/-- The player object at index `i` (`game.players[i]`). -/
def AGame.playerAt (g : AGame) (i : Nat) : GPlayer := g.players.getD i default

/-! ## Board legality queries (`board.Board`) -/

/-- `Board.can_build_settlement`: the requesting player is `pid` with player
record `pl`; `initial` is the `initial_placement` flag. -/
def canBuildSettlement (b : ABoard) (pid : Nat) (pl : GPlayer) (p : APlot)
    (initial : Bool) : Bool :=
  if p.isOccupied then false
  else if pl.availableSettlements = 0 then false
  else if hasAdjacentSettlement b p then false
  else if !initial &&
      !(p.adjacentPaths.any fun j => (b.pathAt j).road = some pid) then false
  else true

/-- `Board.can_build_city`. -/
def canBuildCity (b : ABoard) (pid : Nat) (pl : GPlayer) (plotIdx : Nat) : Bool :=
  match (b.plotAt plotIdx).building with
  | some bi => bi.kind = .settlement && bi.owner = pid && pl.availableCities ≠ 0
  | none => false

/-- `Board.can_build_road` on the path with index `eIdx`: the `initial`
parameter is present in the source's signature but unused in its body. -/
def canBuildRoad (b : ABoard) (pid : Nat) (pl : GPlayer) (eIdx : Nat)
    (_initial : Bool) : Bool :=
  let e := b.pathAt eIdx
  if e.road.isSome then false
  else if pl.availableRoads = 0 then false
  else
    let fromBuilding := [e.plots.1, e.plots.2].any fun v =>
      match (b.plotAt v).building with
      | some bi => bi.owner = pid
      | none => false
    let fromRoad := [e.plots.1, e.plots.2].any fun v =>
      let p := b.plotAt v
      match p.building with
      | some bi =>
          if bi.owner ≠ pid then false
          else p.adjacentPaths.any fun j =>
            j ≠ eIdx && (b.pathAt j).road = some pid
      | none => p.adjacentPaths.any fun j =>
            j ≠ eIdx && (b.pathAt j).road = some pid
    fromBuilding || fromRoad

/-- Whether an opponent's building on plot `p` blocks player `pid` from
continuing a road through it (`if plot.building and plot.building.player !=
player: continue`). -/
def blocksPlayer (p : APlot) (pid : Nat) : Bool :=
  match p.building with
  | some bi => bi.owner ≠ pid
  | none => false

/-- `Board._dfs_road_length`: the recursive search, with explicit fuel (the
Python recursion terminates because `visited` grows; the engine calls it with
fuel exceeding the number of paths, which the recursion depth never reaches).
Each recursive branch receives `visited.copy()` extended with the current
path, exactly as the source copies the set per branch. -/
def dfsRoadLength (b : ABoard) (pid : Nat) :
    Nat → Nat → Option Nat → List Nat → Nat
  | 0, _, _, _ => 0
  | fuel + 1, current, cameFrom, visited =>
    if current ∈ visited then 0
    else if (b.pathAt current).road ≠ some pid then 0
    else
      let visited' := current :: visited
      let e := b.pathAt current
      [e.plots.1, e.plots.2].foldl
        (fun acc v =>
          let p := b.plotAt v
          if blocksPlayer p pid then acc
          else p.adjacentPaths.foldl
            (fun acc2 adj =>
              if adj ≠ current && some adj ≠ cameFrom then
                max acc2 (1 + dfsRoadLength b pid fuel adj (some current) visited')
              else acc2)
            acc)
        1

/-- `Board.get_longest_road`: try a depth-first search from every road the
player owns and take the maximum; `visitedGlobal` accumulates exactly the
paths the top-level calls added to their `visited` set (the per-branch copies
in `_dfs_road_length` never flow back, so that is just the start path when
its road check passes). -/
def getLongestRoad (b : ABoard) (pid : Nat) (roads : List Nat) : Nat :=
  match roads with
  | [] => 0
  | _ =>
    (roads.foldl
      (fun (st : Nat × List Nat) r =>
        let (maxLen, visitedGlobal) := st
        if r ∈ visitedGlobal then st
        else
          let len := dfsRoadLength b pid (b.paths.length + 1) r none []
          let visitedGlobal' :=
            if (b.pathAt r).road = some pid then r :: visitedGlobal
            else visitedGlobal
          (max maxLen len, visitedGlobal'))
      (0, [])).1

/-! ## Player operations (`player.Player`, `board.Port`) -/

/-- `Port.get_trade_ratio`. -/
def portTradeRatio (pk : PortKind) (r : Resource) : Option (Nat × Nat) :=
  match pk with
  | .threeAny => some (3, 1)
  | .two r' => if r = r' then some (2, 1) else none

/-- `Player.get_accessible_ports`: the ports on the plots of the player's
settlements and cities, without duplicates, in first-seen order. -/
def getAccessiblePorts (b : ABoard) (pl : GPlayer) : List PortKind :=
  (pl.settlements ++ pl.cities).foldl
    (fun acc plotIdx =>
      match (b.plotAt plotIdx).port with
      | some pk => if pk ∈ acc then acc else acc ++ [pk]
      | none => acc)
    []

/-- `Player.get_best_trade_ratio`: the lowest give-count ratio among the
default 4:1 and the accessible ports' ratios for `r`. -/
def getBestTradeRatio (b : ABoard) (pl : GPlayer) (r : Resource) : Nat × Nat :=
  (getAccessiblePorts b pl).foldl
    (fun best pk =>
      match portTradeRatio pk r with
      | some ratio => if ratio.1 < best.1 then ratio else best
      | none => best)
    (4, 1)

/-- `Player.can_afford_road`. -/
def canAffordRoad (pl : GPlayer) : Bool :=
  if pl.freeRoadsRemaining ≠ 0 then true
  else 1 ≤ pl.resources.get .brick && 1 ≤ pl.resources.get .wood

/-- `Player.can_afford_settlement`. -/
def canAffordSettlement (pl : GPlayer) : Bool :=
  1 ≤ pl.resources.get .brick && 1 ≤ pl.resources.get .wood &&
  1 ≤ pl.resources.get .wool && 1 ≤ pl.resources.get .wheat

/-- `Player.can_afford_city`. -/
def canAffordCity (pl : GPlayer) : Bool :=
  2 ≤ pl.resources.get .wheat && 3 ≤ pl.resources.get .ore

/-- `Player.can_afford_development_card`. -/
def canAffordDevelopmentCard (pl : GPlayer) : Bool :=
  1 ≤ pl.resources.get .wool && 1 ≤ pl.resources.get .wheat &&
  1 ≤ pl.resources.get .ore

/-- `Player.pay_for_road`: `none` on failure, otherwise the updated player
and bank. A free road from the Road Building card consumes the counter
instead of resources. -/
def payForRoad (pl : GPlayer) (bank : ResMap) : Option (GPlayer × ResMap) :=
  if pl.freeRoadsRemaining ≠ 0 then
    some ({ pl with freeRoadsRemaining := pl.freeRoadsRemaining - 1 }, bank)
  else if !canAffordRoad pl then none
  else
    some ({ pl with resources := (pl.resources.sub .brick 1).sub .wood 1 },
      (bank.add .brick 1).add .wood 1)

/-- `Player.pay_for_settlement`. -/
def payForSettlement (pl : GPlayer) (bank : ResMap) : Option (GPlayer × ResMap) :=
  if !canAffordSettlement pl then none
  else
    some ({ pl with resources :=
        (((pl.resources.sub .brick 1).sub .wood 1).sub .wool 1).sub .wheat 1 },
      (((bank.add .brick 1).add .wood 1).add .wool 1).add .wheat 1)

/-- `Player.pay_for_city`. -/
def payForCity (pl : GPlayer) (bank : ResMap) : Option (GPlayer × ResMap) :=
  if !canAffordCity pl then none
  else
    some ({ pl with resources := (pl.resources.sub .wheat 2).sub .ore 3 },
      (bank.add .wheat 2).add .ore 3)

/-- `Player.pay_for_development_card`. -/
def payForDevelopmentCard (pl : GPlayer) (bank : ResMap) :
    Option (GPlayer × ResMap) :=
  if !canAffordDevelopmentCard pl then none
  else
    some ({ pl with resources :=
        ((pl.resources.sub .wool 1).sub .wheat 1).sub .ore 1 },
      ((bank.add .wool 1).add .wheat 1).add .ore 1)

/-- `Player.calculate_victory_points`. -/
def calculateVictoryPoints (pl : GPlayer) : Nat :=
  pl.settlements.length + 2 * pl.cities.length + pl.victoryPointCardsPlayed +
    (if pl.hasLargestArmy then 2 else 0) + (if pl.hasLongestRoad then 2 else 0)

/-- `Player.get_playable_development_cards`, as the list of playable card
indices (the source compares card objects by identity, and every card held is
a distinct object, so a card is identified by its index in
`development_cards`; the `current_turn` parameter is unused in the source's
body). -/
def getPlayableDevelopmentCards (pl : GPlayer) : List Nat :=
  if pl.developmentCardPlayedThisTurn then
    (List.range pl.developmentCards.length).filter fun i =>
      !(pl.developmentCards.getD i default).played &&
        (pl.developmentCards.getD i default).kind = .victoryPoint
  else
    (List.range pl.developmentCards.length).filter fun i =>
      !(pl.developmentCards.getD i default).played &&
        !(i ∈ pl.cardsBoughtThisTurn &&
          (pl.developmentCards.getD i default).kind ≠ .victoryPoint)

instance : Inhabited AHex := ⟨{}⟩

/-! ## Scoring awards (`Game.check_largest_army`, `Game.check_longest_road`,
`Game.check_victory`)

Both award routines first locate the current holder (the first player whose
flag is set) and remember that holder and its score, then run one pass over
all players; the remembered holder and score are not refreshed inside the
pass, exactly as in the source. -/

def knightsAt (ps : List GPlayer) (i : Nat) : Nat :=
  (ps.getD i default).knightsPlayed

def armyFlagAt (ps : List GPlayer) (i : Nat) : Bool :=
  (ps.getD i default).hasLargestArmy

def setArmyFlag (ps : List GPlayer) (i : Nat) (v : Bool) : List GPlayer :=
  updAt ps i fun p => { p with hasLargestArmy := v }

/-- The pass of `Game.check_largest_army` when no player holds the award:
every player with at least 3 knights is granted the flag. -/
def armyGrant : List Nat → List GPlayer → List GPlayer
  | [], ps => ps
  | i :: rest, ps =>
    armyGrant rest (if 3 ≤ knightsAt ps i then setArmyFlag ps i true else ps)

/-- The pass of `Game.check_largest_army` when player `h` holds the award
with `largest` knights: any other player with at least 3 knights and strictly
more than `largest` takes the award from `h`. -/
def armyLoop (h largest : Nat) : List Nat → List GPlayer → List GPlayer
  | [], ps => ps
  | i :: rest, ps =>
    armyLoop h largest rest
      (if 3 ≤ knightsAt ps i ∧ i ≠ h ∧ largest < knightsAt ps i then
        setArmyFlag (setArmyFlag ps h false) i true
      else ps)

/-- The index of the first player whose army flag is set, if any: the
holder-locating loop at the top of `Game.check_largest_army`. -/
def firstFlagged : List GPlayer → Option Nat
  | [] => none
  | p :: ps =>
    if p.hasLargestArmy then some 0 else (firstFlagged ps).map (· + 1)

/-- `Game.check_largest_army` restricted to the player list (the subsequent
victory check touches neither knight counts nor army flags). -/
def checkLargestArmyPlayers (ps : List GPlayer) : List GPlayer :=
  match firstFlagged ps with
  | none => armyGrant (List.range ps.length) ps
  | some h => armyLoop h (knightsAt ps h) (List.range ps.length) ps

/-- `Game.check_victory`: the first player with 10 or more victory points
becomes the winner and the phase becomes terminal. -/
def checkVictory (g : AGame) : AGame :=
  match List.findIdx? (fun p => 10 ≤ calculateVictoryPoints p) g.players with
  | some i => { g with winner := some i, phase := .endPhase }
  | none => g

/-- `Game.check_largest_army` on the full game state. -/
def checkLargestArmy (g : AGame) : AGame :=
  checkVictory { g with players := checkLargestArmyPlayers g.players }

/-- The pass of `Game.check_longest_road` when no player holds the award. -/
def roadGrant (b : ABoard) : List Nat → List GPlayer → List GPlayer
  | [], ps => ps
  | i :: rest, ps =>
    roadGrant b rest
      (if 5 ≤ getLongestRoad b i (ps.getD i default).roads then
        updAt ps i (fun p => { p with hasLongestRoad := true })
      else ps)

/-- The pass of `Game.check_longest_road` when player `h` holds the award
with a longest road of `largest`. -/
def roadLoop (b : ABoard) (h largest : Nat) : List Nat → List GPlayer → List GPlayer
  | [], ps => ps
  | i :: rest, ps =>
    roadLoop b h largest rest
      (if 5 ≤ getLongestRoad b i (ps.getD i default).roads ∧ i ≠ h ∧
          largest < getLongestRoad b i (ps.getD i default).roads then
        updAt (updAt ps h fun p => { p with hasLongestRoad := false }) i
          (fun p => { p with hasLongestRoad := true })
      else ps)

/-- `Game.check_longest_road`. -/
def checkLongestRoad (g : AGame) : AGame :=
  let ps := g.players
  let ps' :=
    match List.findIdx? (fun p => p.hasLongestRoad) ps with
    | none => roadGrant g.board (List.range ps.length) ps
    | some h =>
      roadLoop g.board h (getLongestRoad g.board h (ps.getD h default).roads)
        (List.range ps.length) ps
  checkVictory { g with players := ps' }

/-! ## Game operations (`game.Game`) -/

def AGame.setPlot (g : AGame) (i : Nat) (f : APlot → APlot) : AGame :=
  { g with board := { g.board with plots := updAt g.board.plots i f } }

def AGame.setPath (g : AGame) (i : Nat) (f : APath → APath) : AGame :=
  { g with board := { g.board with paths := updAt g.board.paths i f } }

def AGame.setPlayer (g : AGame) (i : Nat) (f : GPlayer → GPlayer) : AGame :=
  { g with players := updAt g.players i f }

/-- `Game.collect_starting_resources`: one of each adjacent non-desert
hexagon's resource, each only while the bank has it. -/
def collectStartingResources (g : AGame) (pid plotIdx : Nat) : AGame :=
  (g.board.plotAt plotIdx).adjacentHexagons.foldl
    (fun g hIdx =>
      let hex := g.board.hexagons.getD hIdx default
      match hex.terrain with
      | some t =>
        if t ≠ .desert then
          match hex.getResource with
          | some r =>
            if 1 ≤ g.bank.get r then
              { g.setPlayer pid (fun pl =>
                  { pl with resources := pl.resources.add r 1 }) with
                bank := g.bank.sub r 1 }
            else g
          | none => g
        else g
      | none => g)
    g

/-- `Game.place_initial_settlement`: note that the source checks only the
phase, not whether `pid` is the current player. -/
def placeInitialSettlement (g : AGame) (pid plotIdx : Nat) : Bool × AGame :=
  if g.phase ≠ .setup then (false, g)
  else if !canBuildSettlement g.board pid (g.playerAt pid)
      (g.board.plotAt plotIdx) true then (false, g)
  else
    let g1 := (g.setPlot plotIdx fun p =>
        { p with building := some ⟨pid, .settlement⟩ }).setPlayer pid fun pl =>
      { pl with settlements := pl.settlements ++ [plotIdx],
                availableSettlements := pl.availableSettlements - 1 }
    let g2 := if g1.setupRound = 2 then collectStartingResources g1 pid plotIdx
      else g1
    (true, { g2 with
      settlementsPlacedThisSetup := g2.settlementsPlacedThisSetup + 1 })

/-- `Game.advance_setup_turn`. -/
def advanceSetupTurn (g : AGame) : AGame :=
  if g.setupForward then
    if g.currentPlayerIndex < g.players.length - 1 then
      { g with currentPlayerIndex := g.currentPlayerIndex + 1 }
    else { g with setupForward := false, setupRound := 2 }
  else
    if 0 < g.currentPlayerIndex then
      { g with currentPlayerIndex := g.currentPlayerIndex - 1 }
    else { g with phase := .main, turnNumber := 1 }

/-- `Game.place_initial_road`: like the settlement placement, the source
checks only the phase, not whether `pid` is the current player. -/
def placeInitialRoad (g : AGame) (pid pathIdx : Nat) : Bool × AGame :=
  if g.phase ≠ .setup then (false, g)
  else
    match (g.playerAt pid).settlements.getLast? with
    | none => (false, g)
    | some lastPlot =>
      let e := g.board.pathAt pathIdx
      if lastPlot ≠ e.plots.1 ∧ lastPlot ≠ e.plots.2 then (false, g)
      else if !canBuildRoad g.board pid (g.playerAt pid) pathIdx true then
        (false, g)
      else
        let g1 := (g.setPath pathIdx fun e => { e with road := some pid }).setPlayer
          pid fun pl =>
            { pl with roads := pl.roads ++ [pathIdx],
                      availableRoads := pl.availableRoads - 1 }
        (true, advanceSetupTurn g1)

/-- `Game.distribute_resources`: hexagon-by-hexagon and plot-by-plot in board
order, each credit capped by the bank's current stock. -/
def distributeResources (g : AGame) (roll : Nat) : AGame :=
  g.board.hexagons.foldl
    (fun g hex =>
      if hex.rollValue = some roll ∧ hex.hasRobber = false then
        match hex.getResource with
        | none => g
        | some r =>
          hex.plots.foldl
            (fun g pi =>
              match (g.board.plotAt pi).building with
              | some bi =>
                let amt := min bi.kind.multiplier (g.bank.get r)
                if 0 < amt then
                  { g.setPlayer bi.owner (fun pl =>
                      { pl with resources := pl.resources.add r amt }) with
                    bank := g.bank.sub r amt }
                else g
              | none => g)
            g
      else g)
    g

/-- `Game.build_road`. -/
def buildRoad (g : AGame) (pid pathIdx : Nat) : Bool × AGame :=
  if g.phase ≠ .main ∨ pid ≠ g.currentPlayerIndex then (false, g)
  else if !canBuildRoad g.board pid (g.playerAt pid) pathIdx false then (false, g)
  else
    match payForRoad (g.playerAt pid) g.bank with
    | none => (false, g)
    | some (pl', bank') =>
      let g1 := { g.setPlayer pid (fun _ => pl') with bank := bank' }
      let g2 := (g1.setPath pathIdx fun e => { e with road := some pid }).setPlayer
        pid fun pl =>
          { pl with roads := pl.roads ++ [pathIdx],
                    availableRoads := pl.availableRoads - 1 }
      (true, checkLongestRoad g2)

/-- `Game.build_settlement`. -/
def buildSettlement (g : AGame) (pid plotIdx : Nat) : Bool × AGame :=
  if g.phase ≠ .main ∨ pid ≠ g.currentPlayerIndex then (false, g)
  else if !canBuildSettlement g.board pid (g.playerAt pid)
      (g.board.plotAt plotIdx) false then (false, g)
  else
    match payForSettlement (g.playerAt pid) g.bank with
    | none => (false, g)
    | some (pl', bank') =>
      let g1 := { g.setPlayer pid (fun _ => pl') with bank := bank' }
      let g2 := (g1.setPlot plotIdx fun p =>
          { p with building := some ⟨pid, .settlement⟩ }).setPlayer pid fun pl =>
        { pl with settlements := pl.settlements ++ [plotIdx],
                  availableSettlements := pl.availableSettlements - 1 }
      (true, checkVictory g2)

/-- `Game.build_city`: replaces the settlement at the plot in place. -/
def buildCity (g : AGame) (pid plotIdx : Nat) : Bool × AGame :=
  if g.phase ≠ .main ∨ pid ≠ g.currentPlayerIndex then (false, g)
  else if !canBuildCity g.board pid (g.playerAt pid) plotIdx then (false, g)
  else
    match payForCity (g.playerAt pid) g.bank with
    | none => (false, g)
    | some (pl', bank') =>
      let g1 := { g.setPlayer pid (fun _ => pl') with bank := bank' }
      let g2 := (g1.setPlot plotIdx fun p =>
          { p with building := some ⟨pid, .city⟩ }).setPlayer pid fun pl =>
        { pl with settlements := pl.settlements.erase plotIdx,
                  availableSettlements := pl.availableSettlements + 1,
                  cities := pl.cities ++ [plotIdx],
                  availableCities := pl.availableCities - 1 }
      (true, checkVictory g2)

/-- `Game.buy_development_card`: the deck is drawn from its tail end
(`list.pop()`); an empty deck refunds the payment. -/
def buyDevelopmentCard (g : AGame) (pid : Nat) : Option DevCardKind × AGame :=
  if g.phase ≠ .main ∨ pid ≠ g.currentPlayerIndex then (none, g)
  else
    match payForDevelopmentCard (g.playerAt pid) g.bank with
    | none => (none, g)
    | some (pl', bank') =>
      let g1 := { g.setPlayer pid (fun _ => pl') with bank := bank' }
      match g1.deck.getLast? with
      | none =>
        let g2 := { g1.setPlayer pid (fun pl =>
            { pl with resources :=
                ((pl.resources.add .wool 1).add .wheat 1).add .ore 1 }) with
          bank := ((g1.bank.sub .wool 1).sub .wheat 1).sub .ore 1 }
        (none, g2)
      | some kind =>
        let g2 := { g1.setPlayer pid (fun pl =>
            { pl with
              developmentCards := pl.developmentCards ++ [⟨kind, false⟩],
              cardsBoughtThisTurn :=
                pl.cardsBoughtThisTurn ++ [pl.developmentCards.length] }) with
          deck := g1.deck.dropLast }
        (some kind, g2)

/-- The effect of `DevelopmentCard.play` for the card at `cardIndex` of
player `pid`: the card is marked played, then its kind-specific effect runs
(Monopoly and Invention only return a follow-up callback there, so marking is
their whole immediate effect). -/
def playCardEffect (g : AGame) (pid cardIndex : Nat) (kind : DevCardKind) :
    AGame :=
  let g1 := g.setPlayer pid fun pl =>
    { pl with
      developmentCards :=
        updAt pl.developmentCards cardIndex (fun c => { c with played := true }) }
  match kind with
  | .knight =>
    checkLargestArmy (g1.setPlayer pid fun pl =>
      { pl with knightsPlayed := pl.knightsPlayed + 1 })
  | .roadBuilding => g1.setPlayer pid fun pl => { pl with freeRoadsRemaining := 2 }
  | .victoryPoint => g1.setPlayer pid fun pl =>
      { pl with victoryPointCardsPlayed := pl.victoryPointCardsPlayed + 1 }
  | .monopoly => g1
  | .invention => g1

/-- `Game.play_development_card`. -/
def playDevelopmentCard (g : AGame) (pid cardIndex : Nat) : Bool × AGame :=
  if g.phase ≠ .main ∨ pid ≠ g.currentPlayerIndex then (false, g)
  else if (g.playerAt pid).developmentCards.length ≤ cardIndex then (false, g)
  else
    let card := (g.playerAt pid).developmentCards.getD cardIndex default
    if cardIndex ∉ getPlayableDevelopmentCards (g.playerAt pid) then (false, g)
    else
      let g1 := if card.kind ≠ .victoryPoint then
          g.setPlayer pid fun pl =>
            { pl with developmentCardPlayedThisTurn := true }
        else g
      let g2 := playCardEffect g1 pid cardIndex card.kind
      let g3 := if card.kind = .victoryPoint then checkVictory g2 else g2
      (true, g3)

/-- `MonopolyCard.execute_monopoly`: every other player's stock of `r` is
zeroed and summed, then the active player is credited from the bank with that
sum capped by the bank's stock. -/
def executeMonopoly (g : AGame) (pid : Nat) (r : Resource) : AGame :=
  let step := (List.range g.players.length).foldl
    (fun (st : Nat × AGame) i =>
      if i ≠ pid then
        let amount := ((st.2.playerAt i).resources.get r)
        (st.1 + amount,
          st.2.setPlayer i fun pl => { pl with resources := pl.resources.set r 0 })
      else st)
    (0, g)
  let totalCollected := step.1
  let g1 := step.2
  let available := min totalCollected (g1.bank.get r)
  { g1.setPlayer pid (fun pl =>
      { pl with resources := pl.resources.add r available }) with
    bank := g1.bank.sub r available }

/-- `InventionCard.execute_invention`: one unit of each chosen resource,
each independently gated by the bank's stock. -/
def executeInvention (g : AGame) (pid : Nat) (r1 r2 : Resource) : AGame :=
  let g1 := if 0 < g.bank.get r1 then
      { g.setPlayer pid (fun pl =>
          { pl with resources := pl.resources.add r1 1 }) with
        bank := g.bank.sub r1 1 }
    else g
  if 0 < g1.bank.get r2 then
    { g1.setPlayer pid (fun pl =>
        { pl with resources := pl.resources.add r2 1 }) with
      bank := g1.bank.sub r2 1 }
  else g1

/-- `Game.propose_trade`: all validation precedes any transfer. -/
def proposeTrade (g : AGame) (proposer target : Nat)
    (offer request : List (Resource × Nat)) : Bool × AGame :=
  if g.phase ≠ .main ∨ proposer ≠ g.currentPlayerIndex then (false, g)
  else if offer.any (fun o => request.any fun rq => rq.1 = o.1) then (false, g)
  else if offer.any (fun o => (g.playerAt proposer).resources.get o.1 < o.2) then
    (false, g)
  else if request.any (fun rq => (g.playerAt target).resources.get rq.1 < rq.2) then
    (false, g)
  else
    let g1 := offer.foldl
      (fun g o =>
        (g.setPlayer proposer fun pl =>
            { pl with resources := pl.resources.sub o.1 o.2 }).setPlayer target
          fun pl => { pl with resources := pl.resources.add o.1 o.2 })
      g
    let g2 := request.foldl
      (fun g rq =>
        (g.setPlayer target fun pl =>
            { pl with resources := pl.resources.sub rq.1 rq.2 }).setPlayer proposer
          fun pl => { pl with resources := pl.resources.add rq.1 rq.2 })
      g1
    (true, g2)

/-- `Bank.trade_with_player`. -/
def tradeWithPlayer (bank : ResMap) (pl : GPlayer) (give : Resource)
    (giveAmount : Nat) (receive : Resource) : Bool × ResMap × GPlayer :=
  if pl.resources.get give < giveAmount then (false, bank, pl)
  else if bank.get receive < 1 then (false, bank, pl)
  else
    (true, (bank.add give giveAmount).sub receive 1,
      { pl with resources := (pl.resources.sub give giveAmount).add receive 1 })

/-- `Game.bank_trade`: the give-count comes from the player's best ratio. -/
def bankTrade (g : AGame) (pid : Nat) (give receive : Resource) : Bool × AGame :=
  if g.phase ≠ .main ∨ pid ≠ g.currentPlayerIndex then (false, g)
  else
    let ratio := getBestTradeRatio g.board (g.playerAt pid) give
    let res := tradeWithPlayer g.bank (g.playerAt pid) give ratio.1 receive
    (res.1, { g.setPlayer pid (fun _ => res.2.2) with bank := res.2.1 })

/-! ## Board construction (`Board._create_board_structure`)

The construction is embedded with the hexagon traversal order as an explicit
parameter; the source traverses in increasing id order (`range(1, 20)` for
the plot pass and `self.hexagons` for the path pass). Plots and paths carry
the ids the source's class counters would assign. -/

/-- The static hex adjacency table: `hex_id ->` list of
`(neighbor_id, edge mapping my_edge -> neighbor_edge)` in source order. -/
def hexAdjacencies : Nat → List (Nat × List (Nat × Nat))
  | 1 => [(2, [(2, 5)]), (5, [(3, 0), (4, 1)]), (4, [(4, 0), (5, 1)])]
  | 2 => [(1, [(5, 2)]), (3, [(2, 5)]), (6, [(3, 0), (4, 1)]), (5, [(4, 0), (5, 1)])]
  | 3 => [(2, [(5, 2)]), (7, [(3, 0), (4, 1)]), (6, [(4, 0), (5, 1)])]
  | 4 => [(1, [(0, 4), (1, 5)]), (5, [(2, 5)]), (9, [(3, 0), (4, 1)]),
      (8, [(4, 0), (5, 1)])]
  | 5 => [(1, [(0, 3), (1, 4)]), (2, [(0, 4), (1, 5)]), (4, [(5, 2)]),
      (6, [(2, 5)]), (10, [(3, 0), (4, 1)]), (9, [(4, 0), (5, 1)])]
  | 6 => [(2, [(0, 3), (1, 4)]), (3, [(0, 4), (1, 5)]), (5, [(5, 2)]),
      (7, [(2, 5)]), (11, [(3, 0), (4, 1)]), (10, [(4, 0), (5, 1)])]
  | 7 => [(3, [(0, 3), (1, 4)]), (6, [(5, 2)]), (12, [(3, 0), (4, 1)]),
      (11, [(4, 0), (5, 1)])]
  | 8 => [(4, [(0, 4), (1, 5)]), (9, [(2, 5)]), (13, [(3, 0), (4, 1)])]
  | 9 => [(4, [(0, 3), (1, 4)]), (5, [(0, 4), (1, 5)]), (8, [(5, 2)]),
      (10, [(2, 5)]), (14, [(3, 0), (4, 1)]), (13, [(4, 0), (5, 1)])]
  | 10 => [(5, [(0, 3), (1, 4)]), (6, [(0, 4), (1, 5)]), (9, [(5, 2)]),
      (11, [(2, 5)]), (15, [(3, 0), (4, 1)]), (14, [(4, 0), (5, 1)])]
  | 11 => [(6, [(0, 3), (1, 4)]), (7, [(0, 4), (1, 5)]), (10, [(5, 2)]),
      (12, [(2, 5)]), (16, [(3, 0), (4, 1)]), (15, [(4, 0), (5, 1)])]
  | 12 => [(7, [(0, 3), (1, 4)]), (11, [(5, 2)]), (16, [(4, 0), (5, 1)])]
  | 13 => [(8, [(0, 3), (1, 4)]), (9, [(0, 4), (1, 5)]), (14, [(2, 5)]),
      (17, [(3, 0), (4, 1)])]
  | 14 => [(9, [(0, 3), (1, 4)]), (10, [(0, 4), (1, 5)]), (13, [(5, 2)]),
      (15, [(2, 5)]), (18, [(3, 0), (4, 1)]), (17, [(4, 0), (5, 1)])]
  | 15 => [(10, [(0, 3), (1, 4)]), (11, [(0, 4), (1, 5)]), (14, [(5, 2)]),
      (16, [(2, 5)]), (19, [(3, 0), (4, 1)]), (18, [(4, 0), (5, 1)])]
  | 16 => [(11, [(0, 3), (1, 4)]), (12, [(0, 4), (1, 5)]), (15, [(5, 2)]),
      (19, [(4, 0), (5, 1)])]
  | 17 => [(13, [(0, 3), (1, 4)]), (14, [(0, 4), (1, 5)]), (18, [(2, 5)])]
  | 18 => [(14, [(0, 3), (1, 4)]), (15, [(0, 4), (1, 5)]), (17, [(5, 2)]),
      (19, [(2, 5)])]
  | 19 => [(15, [(0, 3), (1, 4)]), (16, [(0, 4), (1, 5)]), (18, [(5, 2)])]
  | _ => []

/-- A plot as built by the construction (`board.Plot`), carrying the id the
source's `Plot._id_counter` assigns. -/
structure CPlot where
  id : Nat
  adjacentHexagons : List Nat := []
  adjacentPaths : List Nat := []
  adjacentPlots : List Nat := []
deriving DecidableEq, Repr

instance : Inhabited CPlot := ⟨{ id := 0 }⟩

/-- A path as built by the construction (`board.Path`). -/
structure CPath where
  id : Nat
  plots : Nat × Nat
  adjacentHexagons : List Nat := []
deriving DecidableEq, Repr

instance : Inhabited CPath := ⟨{ id := 0, plots := (0, 0) }⟩

/-- The construction state: `all_plots_map`, `Board.plots`, `Board.paths`,
each hexagon's `plots`/`paths` lists, and the two id counters. -/
structure BuildState where
  plotsMap : List ((Nat × Nat) × Nat) := []
  plots : List CPlot := []
  paths : List CPath := []
  hexPlots : List (Nat × List Nat) := []
  hexPaths : List (Nat × List Nat) := []
  plotCounter : Nat := 0
  pathCounter : Nat := 0
deriving Repr

/-- Add `x` to a set embedded as a duplicate-free list (`set.add`). -/
def insertNew (l : List Nat) (x : Nat) : List Nat :=
  if x ∈ l then l else l ++ [x]

/-- Append `v` to the list stored under key `k`. -/
def appendAssoc (l : List (Nat × List Nat)) (k v : Nat) : List (Nat × List Nat) :=
  if (l.lookup k).isSome then
    l.map fun e => if e.1 = k then (e.1, e.2 ++ [v]) else e
  else l ++ [(k, [v])]

/-- Update the plot with id `pid` in place. -/
def updPlotById (plots : List CPlot) (pid : Nat) (f : CPlot → CPlot) :
    List CPlot :=
  plots.map fun p => if p.id = pid then f p else p

/-- Update the path with id `eid` in place. -/
def updPathById (paths : List CPath) (eid : Nat) (f : CPath → CPath) :
    List CPath :=
  paths.map fun e => if e.id = eid then f e else e

def BuildState.plotById (st : BuildState) (pid : Nat) : CPlot :=
  (st.plots.find? fun p => p.id = pid).getD default

def BuildState.pathById (st : BuildState) (eid : Nat) : CPath :=
  (st.paths.find? fun e => e.id = eid).getD default

/-- The scan for a plot already registered by an earlier-processed neighbor:
for each neighbor with smaller id, translate the vertex through the shared
edge mapping and look it up; the first hit wins, exactly following the
source's break structure. -/
def findSharedPlot (st : BuildState) (hexId vertex : Nat) : Option Nat :=
  (hexAdjacencies hexId).findSome? fun nb =>
    if nb.1 < hexId then
      nb.2.findSome? fun em =>
        if vertex = em.1 then st.plotsMap.lookup (nb.1, (em.2 + 1) % 6)
        else if vertex = (em.1 + 1) % 6 then st.plotsMap.lookup (nb.1, em.2)
        else none
    else none

/-- One vertex slot of the plot pass: reuse a registered plot, reuse a
neighbor's shared plot, or create a new one; then record it as
`hex.plots[vertex]`. -/
def processVertex (st : BuildState) (hexId vertex : Nat) : BuildState :=
  let key := (hexId, vertex)
  match st.plotsMap.lookup key with
  | some pid => { st with hexPlots := appendAssoc st.hexPlots hexId pid }
  | none =>
    match findSharedPlot st hexId vertex with
    | some pid =>
      { st with
        plotsMap := st.plotsMap ++ [(key, pid)],
        plots := updPlotById st.plots pid fun p =>
          { p with adjacentHexagons := insertNew p.adjacentHexagons hexId },
        hexPlots := appendAssoc st.hexPlots hexId pid }
    | none =>
      let nid := st.plotCounter + 1
      { st with
        plotCounter := nid,
        plotsMap := st.plotsMap ++ [(key, nid)],
        plots := st.plots ++ [{ id := nid, adjacentHexagons := [hexId] }],
        hexPlots := appendAssoc st.hexPlots hexId nid }

/-- The plot pass over one hexagon (vertices 0 to 5). -/
def processHexPlots (st : BuildState) (hexId : Nat) : BuildState :=
  (List.range 6).foldl (fun st v => processVertex st hexId v) st

/-- One edge slot of the path pass: reuse the path already connecting the two
plots if one is registered on the first plot, otherwise create one, which
registers itself on both endpoint plots and records them as mutually
adjacent. -/
def processEdge (st : BuildState) (hexId i : Nat) : BuildState :=
  let pl := (st.hexPlots.lookup hexId).getD []
  let p1 := pl.getD i 0
  let p2 := pl.getD ((i + 1) % 6) 0
  let existing := (st.plotById p1).adjacentPaths.find? fun eid =>
    (st.pathById eid).plots.1 = p2 ∨ (st.pathById eid).plots.2 = p2
  match existing with
  | some eid =>
    { st with
      hexPaths := appendAssoc st.hexPaths hexId eid,
      paths := updPathById st.paths eid fun e =>
        { e with adjacentHexagons := insertNew e.adjacentHexagons hexId } }
  | none =>
    let nid := st.pathCounter + 1
    { st with
      pathCounter := nid,
      plots := updPlotById
        (updPlotById st.plots p1 fun p =>
          { p with adjacentPaths := insertNew p.adjacentPaths nid,
                   adjacentPlots := insertNew p.adjacentPlots p2 })
        p2 fun p =>
          { p with adjacentPaths := insertNew p.adjacentPaths nid,
                   adjacentPlots := insertNew p.adjacentPlots p1 },
      paths :=
        st.paths ++ [{ id := nid, plots := (p1, p2), adjacentHexagons := [hexId] }],
      hexPaths := appendAssoc st.hexPaths hexId nid }

/-- The path pass over one hexagon (edges 0 to 5). -/
def processHexPaths (st : BuildState) (hexId : Nat) : BuildState :=
  (List.range 6).foldl (fun st i => processEdge st hexId i) st

/-- `Board._create_board_structure`, traversing the hexagons in `order` (the
source fixes `order` to increasing ids): the plot pass over all hexagons,
then the path pass. -/
def createBoardStructure (order : List Nat) : BuildState :=
  let st := order.foldl processHexPlots {}
  order.foldl processHexPaths st

/-- The traversal order the source uses: hexagon ids 1 to 19 increasing. -/
def sourceOrder : List Nat := List.range' 1 19

/-- The board structure the source's `Board.__init__` builds. -/
def builtBoard : BuildState := createBoardStructure sourceOrder

/-! ## Specification-side definitions

Reference definitions written from the specification's words, to be compared
with the source-derived functions above. -/

/-- Following the specification of longest road (spec 4.2): the length of the
longest edge-simple trail of player `pid`'s roads starting at plot `v` with
the edges `used` already traversed; an opponent's building blocks
through-traffic but not termination, so a blocked arrival plot ends the
trail. Fuel bounds the recursion; one unit per traversed edge suffices. -/
def specLongestRoadFrom (b : ABoard) (pid : Nat) :
    Nat → Nat → List Nat → Nat
  | 0, _, _ => 0
  | fuel + 1, v, used =>
    (b.plotAt v).adjacentPaths.foldl
      (fun acc e =>
        if e ∉ used ∧ (b.pathAt e).road = some pid then
          let w := (b.pathAt e).otherPlot v
          let cont :=
            if blocksPlayer (b.plotAt w) pid then 0
            else specLongestRoadFrom b pid fuel w (e :: used)
          max acc (1 + cont)
        else acc)
      0

/-- Following the specification (spec 4.2): the true longest simple path
(edge count) in the subgraph induced by player `pid`'s roads, as the maximum
over all starting plots. -/
def specLongestRoad (b : ABoard) (pid : Nat) : Nat :=
  (List.range b.plots.length).foldl
    (fun acc v => max acc (specLongestRoadFrom b pid (b.paths.length + 1) v []))
    0

/-- Following the specification of distribution (spec 4.3), which describes
`Game.distribute_resources` without the redundant positive-amount guard: for
every robber-free hexagon whose roll number equals the total and every
occupied plot on it, in board order, credit the owner with
`min(multiplier, current bank stock)`. -/
def distributeSpec (g : AGame) (roll : Nat) : AGame :=
  g.board.hexagons.foldl
    (fun g hex =>
      if hex.rollValue = some roll ∧ hex.hasRobber = false then
        match hex.getResource with
        | none => g
        | some r =>
          hex.plots.foldl
            (fun g pi =>
              match (g.board.plotAt pi).building with
              | some bi =>
                let amt := min bi.kind.multiplier (g.bank.get r)
                { g.setPlayer bi.owner (fun pl =>
                    { pl with resources := pl.resources.add r amt }) with
                  bank := g.bank.sub r amt }
              | none => g)
            g
      else g)
    g

/-- The total stock of resource `r` across the bank and every player. -/
def totalOfResource (g : AGame) (r : Resource) : Nat :=
  g.bank.get r + (g.players.map fun p => p.resources.get r).sum

/-! ## The knight-play step (claim about the Largest Army award)

`knights_played` and `has_largest_army` are mutated only by
`KnightCard.play` (one increment followed by `Game.check_largest_army`) and
by `Game.check_largest_army` itself, so runs of the game project onto this
step relation on the player list; the victory check that follows the award
pass touches neither field. -/

/-- `player.knights_played += 1` for player `i`. -/
def bumpKnights (ps : List GPlayer) (i : Nat) : List GPlayer :=
  updAt ps i fun p => { p with knightsPlayed := p.knightsPlayed + 1 }

/-- The effect of `KnightCard.play` by player `i` on knight counts and army
flags: increment, then the award pass. -/
def playKnight (ps : List GPlayer) (i : Nat) : List GPlayer :=
  checkLargestArmyPlayers (bumpKnights ps i)

/-- Player lists reachable by knight plays from a fresh game (all knight
counts zero, no award), the projection of reachable runs of the game. -/
inductive ArmyReachable : List GPlayer → Prop where
  | init (ps : List GPlayer)
      (h : ∀ p ∈ ps, p.knightsPlayed = 0 ∧ p.hasLargestArmy = false) :
      ArmyReachable ps
  | step (ps : List GPlayer) (i : Nat) (hre : ArmyReachable ps)
      (hi : i < ps.length) : ArmyReachable (playKnight ps i)

/-- The inductive invariant for the award: at most one holder; a holder has
at least 3 knights and at least as many as every player; without a holder
nobody has reached 3 knights. -/
def ArmyInv (ps : List GPlayer) : Prop :=
  (∀ i j, armyFlagAt ps i = true → armyFlagAt ps j = true → i = j) ∧
  (∀ h, armyFlagAt ps h = true →
    3 ≤ knightsAt ps h ∧ ∀ j, knightsAt ps j ≤ knightsAt ps h) ∧
  ((∀ j, armyFlagAt ps j = false) → ∀ j, knightsAt ps j ≤ 2)

/-! ## Concrete states used by the refutations and witnesses -/

/-- A Y-shaped road network: hub plot 0 with three branches of two roads
each, all owned by player 0 (paths 0-1, 2-3, 4-5 are the branches). Its
longest simple path has 4 edges (two full branches through the hub). -/
def yBoard : ABoard :=
  { plots := [
      { adjacentPaths := [0, 2, 4], adjacentPlots := [1, 3, 5] },
      { adjacentPaths := [0, 1], adjacentPlots := [0, 2] },
      { adjacentPaths := [1], adjacentPlots := [1] },
      { adjacentPaths := [2, 3], adjacentPlots := [0, 4] },
      { adjacentPaths := [3], adjacentPlots := [3] },
      { adjacentPaths := [4, 5], adjacentPlots := [0, 6] },
      { adjacentPaths := [5], adjacentPlots := [5] }],
    paths := [
      { plots := (0, 1), road := some 0 },
      { plots := (1, 2), road := some 0 },
      { plots := (0, 3), road := some 0 },
      { plots := (3, 4), road := some 0 },
      { plots := (0, 5), road := some 0 },
      { plots := (5, 6), road := some 0 }] }

/-- A straight chain of 5 roads owned by player 0. -/
def chainBoard : ABoard :=
  { plots := [
      { adjacentPaths := [0], adjacentPlots := [1] },
      { adjacentPaths := [0, 1], adjacentPlots := [0, 2] },
      { adjacentPaths := [1, 2], adjacentPlots := [1, 3] },
      { adjacentPaths := [2, 3], adjacentPlots := [2, 4] },
      { adjacentPaths := [3, 4], adjacentPlots := [3, 5] },
      { adjacentPaths := [4], adjacentPlots := [4] }],
    paths := [
      { plots := (0, 1), road := some 0 },
      { plots := (1, 2), road := some 0 },
      { plots := (2, 3), road := some 0 },
      { plots := (3, 4), road := some 0 },
      { plots := (4, 5), road := some 0 }] }

/-- A two-player main-phase game with full bank: the start of the monopoly
conservation trace. -/
def monoGame0 : AGame :=
  { board := {}, players := [{}, {}], currentPlayerIndex := 0, phase := .main }

/-- Player 1 plays Invention choosing brick twice: 2 brick move from the
bank to player 1. -/
def monoGame1 : AGame := executeInvention monoGame0 1 .brick .brick

/-- Player 0 then plays Monopoly on brick. -/
def monoGame2 : AGame := executeMonopoly monoGame1 0 .brick

/-- A two-player setup-phase game whose current player is player 0, with one
empty unoccupied plot. -/
def c4Game : AGame :=
  { board := { plots := [{}] }, players := [{}, {}],
    currentPlayerIndex := 0, phase := .setup }

/-- The bank-depletion scenario: one brick hexagon with roll number 5, three
settlements (players 0, 1, 2) on its first three plots, and a bank holding
only 2 brick. -/
def c5Game : AGame :=
  { board := {
      hexagons :=
        [{ terrain := some .hills, rollValue := some 5, plots := [0, 1, 2, 3, 4, 5] }],
      plots := [
        { building := some ⟨0, .settlement⟩ },
        { building := some ⟨1, .settlement⟩ },
        { building := some ⟨2, .settlement⟩ }, {}, {}, {}] },
    bank := ⟨2, 19, 19, 19, 19⟩,
    players := [{}, {}, {}], currentPlayerIndex := 0, phase := .main }

/-- A two-player main-phase game; player 1 holds one brick. -/
def c8Game : AGame :=
  { board := {}, players := [{}, { resources := ⟨1, 0, 0, 0, 0⟩ }],
    currentPlayerIndex := 0, phase := .main }

/-- A one-player main-phase game whose player holds 4 brick and has no port
access (best ratio 4:1). -/
def c10Game : AGame :=
  { board := {}, players := [{ resources := ⟨4, 0, 0, 0, 0⟩ }],
    currentPlayerIndex := 0, phase := .main }

/-- Knight plays from a fresh two-player game: player 0 plays three knights
(taking the award at 3), then player 1 plays two. -/
def c7TieState : List GPlayer :=
  playKnight (playKnight (playKnight (playKnight (playKnight [{}, {}] 0) 0) 0) 1) 1

/-! # Theorems -/

/-! ## Helper lemmas -/

theorem ResMap.get_set_self (m : ResMap) (r : Resource) (n : Nat) :
    (m.set r n).get r = n := by cases r <;> rfl

theorem ResMap.get_set_ne (m : ResMap) (r r' : Resource) (n : Nat)
    (h : r' ≠ r) : (m.set r n).get r' = m.get r' := by
  cases r <;> cases r' <;> first | rfl | exact absurd rfl h

theorem ResMap.set_get (m : ResMap) (r : Resource) : m.set r (m.get r) = m := by
  cases r <;> rfl

theorem ResMap.get_add_self (m : ResMap) (r : Resource) (k : Nat) :
    (m.add r k).get r = m.get r + k := by cases r <;> rfl

theorem ResMap.get_sub_self (m : ResMap) (r : Resource) (k : Nat) :
    (m.sub r k).get r = m.get r - k := by cases r <;> rfl

theorem length_updAt {α : Type} (l : List α) (i : Nat) (f : α → α) :
    (updAt l i f).length = l.length := by
  induction l generalizing i with
  | nil => rfl
  | cons a l ih => cases i with
    | zero => rfl
    | succ n => simpa [updAt] using ih n

theorem getD_updAt_self {α : Type} (l : List α) (i : Nat) (f : α → α) (d : α)
    (h : i < l.length) : (updAt l i f).getD i d = f (l.getD i d) := by
  induction l generalizing i with
  | nil => simp at h
  | cons a l ih => cases i with
    | zero => rfl
    | succ n => simpa [updAt] using ih n (by simpa using h)

theorem getD_updAt_ne {α : Type} (l : List α) (i j : Nat) (f : α → α) (d : α)
    (h : j ≠ i) : (updAt l i f).getD j d = l.getD j d := by
  induction l generalizing i j with
  | nil => rfl
  | cons a l ih => cases i with
    | zero => cases j with
      | zero => exact absurd rfl h
      | succ m => rfl
    | succ n => cases j with
      | zero => rfl
      | succ m => simpa [updAt] using ih n m (by omega)

theorem updAt_id {α : Type} (l : List α) (i : Nat) :
    updAt l i (fun a => a) = l := by
  induction l generalizing i with
  | nil => rfl
  | cons a l ih => cases i with
    | zero => rfl
    | succ n => simpa [updAt] using ih n

/-- Folds with pointwise-equal step functions agree. -/
theorem foldlCongr {α β : Type} {f f' : β → α → β} (h : ∀ b a, f b a = f' b a) :
    ∀ (l : List α) (b : β), List.foldl f b l = List.foldl f' b l := by
  intro l
  induction l with
  | nil => intro b; rfl
  | cons a l ih => intro b; rw [List.foldl_cons, List.foldl_cons, h, ih]

/-! ## C1: the constructed graph -/

/-- C1: refuted. The claim asserts the construction yields exactly 54 plots
and 72 paths with every plot on 2 or 3 paths and every hexagon referencing 6
distinct plots and paths; the source's adjacency table is malformed, and the
construction actually yields 50 plots and 80 paths, a plot lying on 4 paths,
and hexagon 4 referencing plot 6 at two of its six vertex slots. -/
theorem board_construction_malformed :
    builtBoard.plots.length = 50 ∧ builtBoard.paths.length = 80 ∧
    (builtBoard.hexPlots.lookup 4).getD [] = [6, 5, 6, 15, 16, 17] ∧
    (builtBoard.plotById 5).adjacentPaths.length = 4 :=
  ⟨by decide, by decide, by decide, by decide⟩

/-! ## C9: plot-to-hexagon adjacency counts -/

/-- C9: refuted as stated. The plot with id 1 (hexagon 1's vertex 0) lies on
exactly one hexagon, not 2 or 3. -/
theorem plot_with_one_adjacent_hexagon :
    (builtBoard.plotById 1).adjacentHexagons.length = 1 := by decide

/-- C9 (amended): every plot of the constructed board has 1 to 3 adjacent
hexagons, as the specification's data model states. -/
theorem plot_hexagon_degree_bounds :
    ∀ p ∈ builtBoard.plots,
      1 ≤ p.adjacentHexagons.length ∧ p.adjacentHexagons.length ≤ 3 := by decide

/-- Witness for `plot_hexagon_degree_bounds` at the board's first plot. -/
theorem plot_hexagon_degree_bounds_witness :
    builtBoard.plots.getD 0 default ∈ builtBoard.plots ∧
    (1 ≤ (builtBoard.plots.getD 0 default).adjacentHexagons.length ∧
      (builtBoard.plots.getD 0 default).adjacentHexagons.length ≤ 3) :=
  ⟨by decide, plot_hexagon_degree_bounds _ (by decide)⟩

/-! ## C2: the longest-road computation -/

/-- C2: the code is wrong. On the Y-shaped network of 6 roads
(`yBoard`), whose longest simple path has 4 edges, `get_longest_road`
returns 5: its search, having entered a branch through the hub, may continue
into a second hub edge because only the immediately preceding path is
excluded, counting an edge set that is not a connected walk. The straight
chain of 5 roads is reported correctly. -/
theorem longest_road_not_simple_path_length :
    getLongestRoad yBoard 0 [0, 1, 2, 3, 4, 5] = 5 ∧
    specLongestRoad yBoard 0 = 4 ∧
    getLongestRoad chainBoard 0 [0, 1, 2, 3, 4] = 5 ∧
    specLongestRoad chainBoard 0 = 5 :=
  ⟨by decide, by decide, by decide, by decide⟩

/-! ## C3: resource conservation -/

/-- C3: the code is wrong. From a fresh two-player game (19 brick in the
bank), Invention gives player 1 two brick (total still 19); player 0's
Monopoly on brick then zeroes player 1's two brick but credits player 0 out
of the bank, so two brick vanish: the total drops to 17. -/
theorem monopoly_breaks_conservation :
    totalOfResource monoGame0 .brick = 19 ∧
    totalOfResource monoGame1 .brick = 19 ∧
    totalOfResource monoGame2 .brick = 17 ∧
    (monoGame2.playerAt 0).resources.get .brick = 2 ∧
    (monoGame2.playerAt 1).resources.get .brick = 0 ∧
    monoGame2.bank.get .brick = 15 :=
  ⟨by decide, by decide, by decide, by decide, by decide, by decide⟩

/-! ## C4: only the current player may act -/

/-- C4: refuted as stated. In `c4Game` the current player is player 0, yet
`place_initial_settlement` invoked for player 1 succeeds and mutates the
state: the source's setup placements check only the phase, never the acting
player. -/
theorem initial_settlement_ignores_current_player :
    c4Game.currentPlayerIndex = 0 ∧ c4Game.phase = .setup ∧
    (placeInitialSettlement c4Game 1 0).1 = true ∧
    ((placeInitialSettlement c4Game 1 0).2.playerAt 1).availableSettlements = 4 ∧
    (placeInitialSettlement c4Game 1 0).2 ≠ c4Game :=
  ⟨by decide, by decide, by decide, by decide, by decide⟩

/-- C4 (amended): every main-phase turn-scoped operation (`build_road`,
`build_settlement`, `build_city`, `buy_development_card`,
`play_development_card`, `propose_trade`, `bank_trade`) invoked with a
player that is not the current player returns a failure result and leaves
the game state unchanged; the setup placements check only the phase. -/
theorem main_ops_reject_noncurrent (g : AGame)
    (pid pathIdx plotIdx cardIdx target : Nat)
    (offer request : List (Resource × Nat)) (give receive : Resource)
    (hp : pid ≠ g.currentPlayerIndex) :
    buildRoad g pid pathIdx = (false, g) ∧
    buildSettlement g pid plotIdx = (false, g) ∧
    buildCity g pid plotIdx = (false, g) ∧
    buyDevelopmentCard g pid = (none, g) ∧
    playDevelopmentCard g pid cardIdx = (false, g) ∧
    proposeTrade g pid target offer request = (false, g) ∧
    bankTrade g pid give receive = (false, g) :=
  ⟨by simp [buildRoad, hp], by simp [buildSettlement, hp],
   by simp [buildCity, hp], by simp [buyDevelopmentCard, hp],
   by simp [playDevelopmentCard, hp], by simp [proposeTrade, hp],
   by simp [bankTrade, hp]⟩

/-- Witness for `main_ops_reject_noncurrent`: player 1 is not the current
player of `c8Game`. -/
theorem main_ops_reject_noncurrent_witness :
    1 ≠ c8Game.currentPlayerIndex ∧
    buildRoad c8Game 1 0 = (false, c8Game) ∧
    bankTrade c8Game 1 .brick .brick = (false, c8Game) :=
  ⟨by decide,
   (main_ops_reject_noncurrent c8Game 1 0 0 0 0 [] [] .brick .brick (by decide)).1,
   (main_ops_reject_noncurrent c8Game 1 0 0 0 0 [] [] .brick .brick
     (by decide)).2.2.2.2.2.2⟩

/-! ## C8: trade rejection is all-or-nothing -/

/-- C8: confirmed. `propose_trade` performs all of its validation before any
transfer, so whenever a resource kind appears in both maps, or the proposer
lacks an offered amount, or the target lacks a requested amount, it returns
failure with the entire game state (in particular every player's resources)
unchanged. -/
theorem proposeTrade_rejects_without_mutation (g : AGame)
    (proposer target : Nat) (offer request : List (Resource × Nat))
    (h : (∃ o ∈ offer, ∃ rq ∈ request, rq.1 = o.1) ∨
         (∃ o ∈ offer, (g.playerAt proposer).resources.get o.1 < o.2) ∨
         (∃ rq ∈ request, (g.playerAt target).resources.get rq.1 < rq.2)) :
    proposeTrade g proposer target offer request = (false, g) := by
  unfold proposeTrade
  split_ifs with h1 h2 h3 h4
  · rfl
  · rfl
  · rfl
  · rfl
  · exfalso
    simp only [List.any_eq_true, decide_eq_true_eq] at h2 h3 h4
    rcases h with ⟨o, ho, rq, hrq, heq⟩ | ⟨o, ho, hlt⟩ | ⟨rq, hrq, hlt⟩
    · exact h2 ⟨o, ho, rq, hrq, heq⟩
    · exact h3 ⟨o, ho, hlt⟩
    · exact h4 ⟨rq, hrq, hlt⟩

/-- Witness for `proposeTrade_rejects_without_mutation`: brick appears in
both the offer and the request. -/
theorem proposeTrade_rejects_witness :
    (∃ o ∈ [((Resource.brick : Resource), 1)],
      ∃ rq ∈ [((Resource.brick : Resource), 1)], rq.1 = o.1) ∧
    proposeTrade c8Game 0 1 [(.brick, 1)] [(.brick, 1)] = (false, c8Game) :=
  ⟨by decide,
   proposeTrade_rejects_without_mutation c8Game 0 1 _ _ (Or.inl (by decide))⟩

/-! ## C10: bank trades with identical give and receive kinds -/

/-- The best ratio is always one of 4:1, 3:1, 2:1: its give-count is at
least 2 and its receive-count is 1. -/
theorem getBestTradeRatio_bounds (b : ABoard) (pl : GPlayer) (r : Resource) :
    2 ≤ (getBestTradeRatio b pl r).1 ∧ (getBestTradeRatio b pl r).2 = 1 := by
  unfold getBestTradeRatio
  have key : ∀ (l : List PortKind) (best : Nat × Nat), 2 ≤ best.1 → best.2 = 1 →
      2 ≤ (l.foldl (fun best pk =>
        match portTradeRatio pk r with
        | some ratio => if ratio.1 < best.1 then ratio else best
        | none => best) best).1 ∧
      (l.foldl (fun best pk =>
        match portTradeRatio pk r with
        | some ratio => if ratio.1 < best.1 then ratio else best
        | none => best) best).2 = 1 := by
    intro l
    induction l with
    | nil => intro best hb1 hb2; exact ⟨hb1, hb2⟩
    | cons pk rest ih =>
      intro best hb1 hb2
      rw [List.foldl_cons]
      have hstep : 2 ≤ (match portTradeRatio pk r with
          | some ratio => if ratio.1 < best.1 then ratio else best
          | none => best).1 ∧
          (match portTradeRatio pk r with
          | some ratio => if ratio.1 < best.1 then ratio else best
          | none => best).2 = 1 := by
        cases pk with
        | threeAny =>
          simp only [portTradeRatio]
          split_ifs
          · exact ⟨by norm_num, rfl⟩
          · exact ⟨hb1, hb2⟩
        | two r' =>
          by_cases hr : r = r'
          · simp only [portTradeRatio, if_pos hr]
            split_ifs
            · exact ⟨by norm_num, rfl⟩
            · exact ⟨hb1, hb2⟩
          · simp only [portTradeRatio, if_neg hr]
            exact ⟨hb1, hb2⟩
      exact ih _ hstep.1 hstep.2
  exact key _ (4, 1) (by norm_num) rfl

/-- C10: confirmed. `bank_trade` never compares the two resource kinds: with
best ratio (n, 1) for `r`, at least `n` units of `r` in hand and one in the
bank, trading `r` for `r` succeeds and simply hands `n - 1` units of `r` to
the bank. -/
theorem bankTrade_same_resource (g : AGame) (i : Nat) (r : Resource) (n : Nat)
    (hlen : i < g.players.length)
    (hphase : g.phase = .main) (hcur : i = g.currentPlayerIndex)
    (hratio : getBestTradeRatio g.board (g.playerAt i) r = (n, 1))
    (hhold : n ≤ (g.playerAt i).resources.get r)
    (hbank : 1 ≤ g.bank.get r) :
    (bankTrade g i r r).1 = true ∧
    ((bankTrade g i r r).2.playerAt i).resources.get r + (n - 1) =
      (g.playerAt i).resources.get r ∧
    (bankTrade g i r r).2.bank.get r = g.bank.get r + (n - 1) := by
  have hn : 2 ≤ n := by
    have hb := (getBestTradeRatio_bounds g.board (g.playerAt i) r).1
    rw [hratio] at hb
    exact hb
  have hratio1 : (getBestTradeRatio g.board (g.playerAt i) r).1 = n := by
    rw [hratio]
  have hguard : ¬(g.phase ≠ Phase.main ∨ i ≠ g.currentPlayerIndex) := by
    simp [hphase, hcur]
  have hmain : bankTrade g i r r =
      (true, { g.setPlayer i (fun _ =>
          { g.playerAt i with
            resources := ((g.playerAt i).resources.sub r n).add r 1 }) with
        bank := (g.bank.add r n).sub r 1 }) := by
    simp only [bankTrade, tradeWithPlayer]
    rw [if_neg hguard, hratio1]
    rw [if_neg (by omega), if_neg (by omega)]
  rw [hmain]
  refine ⟨rfl, ?_, ?_⟩
  · have hpl : ((({ g.setPlayer i (fun _ =>
        { g.playerAt i with
          resources := ((g.playerAt i).resources.sub r n).add r 1 }) with
        bank := (g.bank.add r n).sub r 1 } : AGame)).playerAt i) =
        { g.playerAt i with
          resources := ((g.playerAt i).resources.sub r n).add r 1 } := by
      show (updAt g.players i _).getD i default = _
      rw [getD_updAt_self _ _ _ _ hlen]
    rw [hpl]
    show (((g.playerAt i).resources.sub r n).add r 1).get r + (n - 1) = _
    rw [ResMap.get_add_self, ResMap.get_sub_self]
    omega
  · show ((g.bank.add r n).sub r 1).get r = _
    rw [ResMap.get_sub_self, ResMap.get_add_self]
    omega

/-- Witness for `bankTrade_same_resource`: the portless player of `c10Game`
holds 4 brick; trading brick for brick at 4:1 leaves 1 and gives the bank 3. -/
theorem bankTrade_same_resource_witness :
    (bankTrade c10Game 0 .brick .brick).1 = true ∧
    ((bankTrade c10Game 0 .brick .brick).2.playerAt 0).resources.get .brick +
      (4 - 1) = (c10Game.playerAt 0).resources.get .brick ∧
    (bankTrade c10Game 0 .brick .brick).2.bank.get .brick =
      c10Game.bank.get .brick + (4 - 1) :=
  bankTrade_same_resource c10Game 0 .brick 4 (by decide) (by decide) (by decide)
    (by decide) (by decide) (by decide)

/-! ## C5: resource distribution -/

/-- Crediting an amount of zero is the identity on the game state. -/
theorem creditZero (g : AGame) (owner : Nat) (r : Resource) :
    ({ g.setPlayer owner (fun pl =>
        { pl with resources := pl.resources.add r 0 }) with
      bank := g.bank.sub r 0 } : AGame) = g := by
  have h1 : (fun (pl : GPlayer) => { pl with resources := pl.resources.add r 0 }) =
      fun pl => pl := by
    funext pl
    show { pl with resources := pl.resources.set r (pl.resources.get r + 0) } = pl
    rw [Nat.add_zero, ResMap.set_get]
  have h2 : g.bank.sub r 0 = g.bank := by
    show g.bank.set r (g.bank.get r - 0) = g.bank
    rw [Nat.sub_zero, ResMap.set_get]
  simp only [AGame.setPlayer, h1, updAt_id, h2]

/-- C5: confirmed. `distribute_resources` equals the specification's
description (credit `min(multiplier, current bank stock)` for every occupied
plot of every robber-free matching hexagon, hexagon-by-hexagon and
plot-by-plot in board order), and on the depletion scenario — a bank with 2
brick and three settlements each claiming 1 — exactly the first two owners
in board order are credited and the bank ends at 0. -/
theorem distribute_matches_spec_and_depletes :
    (∀ (g : AGame) (roll : Nat), distributeResources g roll = distributeSpec g roll) ∧
    ((distributeResources c5Game 5).playerAt 0).resources.get .brick = 1 ∧
    ((distributeResources c5Game 5).playerAt 1).resources.get .brick = 1 ∧
    ((distributeResources c5Game 5).playerAt 2).resources.get .brick = 0 ∧
    (distributeResources c5Game 5).bank.get .brick = 0 := by
  refine ⟨?_, by decide, by decide, by decide, by decide⟩
  intro g roll
  unfold distributeResources distributeSpec
  apply foldlCongr
  intro b hex
  split_ifs with hcond
  · cases hres : hex.getResource with
    | none => rfl
    | some r =>
      apply foldlCongr
      intro b2 pi
      cases hb : (b2.board.plotAt pi).building with
      | none => rfl
      | some bi =>
        simp only
        by_cases hamt : 0 < min bi.kind.multiplier (b2.bank.get r)
        · rw [if_pos hamt]
        · rw [if_neg hamt]
          have hz : min bi.kind.multiplier (b2.bank.get r) = 0 := by omega
          rw [hz]
          exact (creditZero b2 bi.owner r).symm
  · rfl

/-- Witness for `distribute_matches_spec_and_depletes` at the depletion
scenario. -/
theorem distribute_matches_spec_witness :
    distributeResources c5Game 5 = distributeSpec c5Game 5 :=
  distribute_matches_spec_and_depletes.1 c5Game 5

/-! ## C6: settlement legality -/

/-- C6: confirmed. `can_build_settlement` returns true exactly when the plot
is unoccupied, the player has a settlement piece remaining, no adjacent plot
holds a building, and — unless this is an initial placement — some adjacent
path holds a road owned by the player. -/
theorem canBuildSettlement_iff (b : ABoard) (pid : Nat) (pl : GPlayer)
    (p : APlot) (initial : Bool) :
    canBuildSettlement b pid pl p initial = true ↔
      (p.building = none ∧ 0 < pl.availableSettlements ∧
       (∀ j ∈ p.adjacentPlots, (b.plotAt j).building = none) ∧
       (initial = true ∨ ∃ j ∈ p.adjacentPaths, (b.pathAt j).road = some pid)) := by
  unfold canBuildSettlement hasAdjacentSettlement APlot.isOccupied
  split_ifs with h1 h2 h3 h4
  · simp only [Bool.false_eq_true, false_iff]
    intro hc
    rw [hc.1] at h1
    simp at h1
  · simp only [Bool.false_eq_true, false_iff]
    intro hc
    have := hc.2.1
    omega
  · simp only [Bool.false_eq_true, false_iff]
    intro hc
    simp only [List.any_eq_true] at h3
    obtain ⟨j, hj, hocc⟩ := h3
    rw [hc.2.2.1 j hj] at hocc
    simp at hocc
  · simp only [Bool.false_eq_true, false_iff]
    intro hc
    simp only [Bool.and_eq_true, Bool.not_eq_true', List.any_eq_false,
      decide_eq_true_eq] at h4
    rcases hc.2.2.2 with hinit | ⟨j, hj, hroad⟩
    · rw [hinit] at h4
      simp at h4
    · exact h4.2 j hj hroad
  · refine ⟨fun _ => ⟨?_, ?_, ?_, ?_⟩, fun _ => rfl⟩
    · rw [← Option.not_isSome_iff_eq_none]
      simpa using h1
    · exact Nat.pos_of_ne_zero h2
    · intro j hj
      rw [← Option.not_isSome_iff_eq_none]
      intro habs
      exact h3 (List.any_eq_true.mpr ⟨j, hj, habs⟩)
    · by_cases hinit : initial = true
      · exact Or.inl hinit
      · have hinitf : initial = false := by
          cases initial
          · rfl
          · exact absurd rfl hinit
        rcases Bool.eq_false_or_eq_true
          (p.adjacentPaths.any fun j => decide ((b.pathAt j).road = some pid)) with
          ht | hf
        · simp only [List.any_eq_true, decide_eq_true_eq] at ht
          exact Or.inr ht
        · exfalso
          apply h4
          rw [hinitf, hf]
          rfl

/-- Witness for `canBuildSettlement_iff`: on an isolated unoccupied plot, an
initial placement by a fresh player is legal. -/
theorem canBuildSettlement_iff_witness :
    canBuildSettlement {} 0 {} {} true = true :=
  (canBuildSettlement_iff {} 0 {} {} true).mpr
    ⟨rfl, by norm_num, by simp, Or.inl rfl⟩

/-! ## C7: the Largest Army award

Helper lemmas about the award pass, leading to the characterization of a
knight play on reachable states. -/

theorem updAt_ge {α : Type} (l : List α) (i : Nat) (f : α → α)
    (h : l.length ≤ i) : updAt l i f = l := by
  induction l generalizing i with
  | nil => rfl
  | cons a l ih => cases i with
    | zero => simp at h
    | succ n => simpa [updAt] using ih n (by simpa using h)

theorem armyFlagAt_ge (ps : List GPlayer) (j : Nat) (h : ps.length ≤ j) :
    armyFlagAt ps j = false := by
  unfold armyFlagAt
  rw [List.getD_eq_default _ _ h]
  rfl

theorem armyFlagAt_lt_of_true (ps : List GPlayer) (j : Nat)
    (h : armyFlagAt ps j = true) : j < ps.length := by
  by_contra hge
  rw [armyFlagAt_ge ps j (by omega)] at h
  exact Bool.noConfusion h

theorem length_setArmyFlag (ps : List GPlayer) (i : Nat) (v : Bool) :
    (setArmyFlag ps i v).length = ps.length := length_updAt _ _ _

theorem knightsAt_setArmyFlag (ps : List GPlayer) (i : Nat) (v : Bool)
    (j : Nat) : knightsAt (setArmyFlag ps i v) j = knightsAt ps j := by
  unfold knightsAt setArmyFlag
  by_cases hj : j = i
  · subst hj
    by_cases hlt : j < ps.length
    · rw [getD_updAt_self _ _ _ _ hlt]
    · rw [updAt_ge _ _ _ (by omega)]
  · rw [getD_updAt_ne _ _ _ _ _ hj]

theorem armyFlagAt_setArmyFlag_self (ps : List GPlayer) (i : Nat) (v : Bool)
    (h : i < ps.length) : armyFlagAt (setArmyFlag ps i v) i = v := by
  unfold armyFlagAt setArmyFlag
  rw [getD_updAt_self _ _ _ _ h]

theorem armyFlagAt_setArmyFlag_ne (ps : List GPlayer) (i : Nat) (v : Bool)
    (j : Nat) (h : j ≠ i) :
    armyFlagAt (setArmyFlag ps i v) j = armyFlagAt ps j := by
  unfold armyFlagAt setArmyFlag
  rw [getD_updAt_ne _ _ _ _ _ h]

theorem armyFlagAt_cons_succ (p : GPlayer) (ps : List GPlayer) (j : Nat) :
    armyFlagAt (p :: ps) (j + 1) = armyFlagAt ps j := rfl

theorem firstFlagged_none_iff (ps : List GPlayer) :
    firstFlagged ps = none ↔ ∀ j, armyFlagAt ps j = false := by
  induction ps with
  | nil =>
    simp only [firstFlagged, true_iff]
    intro j
    exact armyFlagAt_ge [] j (by simp)
  | cons p ps ih =>
    unfold firstFlagged
    by_cases hp : p.hasLargestArmy
    · simp only [if_pos hp]
      constructor
      · intro habs
        exact Option.noConfusion habs
      · intro hall
        have h0 := hall 0
        rw [show armyFlagAt (p :: ps) 0 = p.hasLargestArmy from rfl, hp] at h0
        exact Bool.noConfusion h0
    · rw [if_neg hp]
      constructor
      · intro hmap j
        have hnone : firstFlagged ps = none := by
          cases hff : firstFlagged ps with
          | none => rfl
          | some k => rw [hff] at hmap; exact Option.noConfusion hmap
        cases j with
        | zero =>
          show p.hasLargestArmy = false
          exact Bool.eq_false_iff.mpr hp
        | succ m =>
          rw [armyFlagAt_cons_succ]
          exact (ih.mp hnone) m
      · intro hall
        have hnone : firstFlagged ps = none :=
          ih.mpr fun j => by
            have := hall (j + 1)
            rwa [armyFlagAt_cons_succ] at this
        rw [hnone]
        rfl

theorem firstFlagged_some_of (ps : List GPlayer) (h : Nat)
    (hh : armyFlagAt ps h = true)
    (huniq : ∀ j, armyFlagAt ps j = true → j = h) :
    firstFlagged ps = some h := by
  induction ps generalizing h with
  | nil =>
    rw [armyFlagAt_ge [] h (by simp)] at hh
    exact Bool.noConfusion hh
  | cons p ps ih =>
    unfold firstFlagged
    by_cases hp : p.hasLargestArmy
    · rw [if_pos hp]
      have h0 : armyFlagAt (p :: ps) 0 = true := hp
      rw [huniq 0 h0]
    · rw [if_neg hp]
      cases h with
      | zero =>
        have : p.hasLargestArmy = true := hh
        exact absurd this hp
      | succ m =>
        have hm : armyFlagAt ps m = true := by rwa [armyFlagAt_cons_succ] at hh
        have huniq' : ∀ j, armyFlagAt ps j = true → j = m := by
          intro j hj
          have := huniq (j + 1) (by rwa [armyFlagAt_cons_succ])
          omega
        rw [ih m hm huniq']
        rfl

theorem length_armyGrant (idxs : List Nat) (ps : List GPlayer) :
    (armyGrant idxs ps).length = ps.length := by
  induction idxs generalizing ps with
  | nil => rfl
  | cons i rest ih =>
    unfold armyGrant
    split_ifs with hc
    · rw [ih, length_setArmyFlag]
    · exact ih ps

theorem knightsAt_armyGrant (idxs : List Nat) (ps : List GPlayer) (j : Nat) :
    knightsAt (armyGrant idxs ps) j = knightsAt ps j := by
  induction idxs generalizing ps with
  | nil => rfl
  | cons i rest ih =>
    unfold armyGrant
    split_ifs with hc
    · rw [ih, knightsAt_setArmyFlag]
    · exact ih ps

theorem armyGrant_no (idxs : List Nat) (ps : List GPlayer)
    (h : ∀ i ∈ idxs, ¬ 3 ≤ knightsAt ps i) : armyGrant idxs ps = ps := by
  induction idxs with
  | nil => rfl
  | cons i rest ih =>
    unfold armyGrant
    rw [if_neg (h i (by simp))]
    exact ih fun j hj => h j (by simp [hj])

theorem armyGrant_single (idxs : List Nat) (ps : List GPlayer) (i : Nat)
    (hnd : idxs.Nodup) (hi : i ∈ idxs) (h3 : 3 ≤ knightsAt ps i)
    (hothers : ∀ j ∈ idxs, 3 ≤ knightsAt ps j → j = i) :
    armyGrant idxs ps = setArmyFlag ps i true := by
  induction idxs with
  | nil => simp at hi
  | cons x rest ih =>
    by_cases hx : x = i
    · subst hx
      unfold armyGrant
      rw [if_pos h3]
      apply armyGrant_no
      intro j hj habs
      rw [knightsAt_setArmyFlag] at habs
      have hji : j = x := hothers j (by simp [hj]) habs
      subst hji
      exact (List.nodup_cons.mp hnd).1 hj
    · have hxnot : ¬ 3 ≤ knightsAt ps x := fun habs =>
        hx (hothers x (by simp) habs)
      unfold armyGrant
      rw [if_neg hxnot]
      exact ih (List.nodup_cons.mp hnd).2
        ((List.mem_cons.mp hi).resolve_left fun he => hx he.symm)
        fun j hj hk => hothers j (by simp [hj]) hk

theorem length_armyLoop (h largest : Nat) (idxs : List Nat)
    (ps : List GPlayer) : (armyLoop h largest idxs ps).length = ps.length := by
  induction idxs generalizing ps with
  | nil => rfl
  | cons i rest ih =>
    unfold armyLoop
    split_ifs with hc
    · rw [ih, length_setArmyFlag, length_setArmyFlag]
    · exact ih ps

theorem knightsAt_armyLoop (h largest : Nat) (idxs : List Nat)
    (ps : List GPlayer) (j : Nat) :
    knightsAt (armyLoop h largest idxs ps) j = knightsAt ps j := by
  induction idxs generalizing ps with
  | nil => rfl
  | cons i rest ih =>
    unfold armyLoop
    split_ifs with hc
    · rw [ih, knightsAt_setArmyFlag, knightsAt_setArmyFlag]
    · exact ih ps

theorem armyLoop_no (h largest : Nat) (idxs : List Nat) (ps : List GPlayer)
    (hq : ∀ i ∈ idxs,
      ¬(3 ≤ knightsAt ps i ∧ i ≠ h ∧ largest < knightsAt ps i)) :
    armyLoop h largest idxs ps = ps := by
  induction idxs with
  | nil => rfl
  | cons i rest ih =>
    unfold armyLoop
    rw [if_neg (hq i (by simp))]
    exact ih fun j hj => hq j (by simp [hj])

theorem armyLoop_single (h largest : Nat) (idxs : List Nat) (ps : List GPlayer)
    (i : Nat) (hnd : idxs.Nodup) (hi : i ∈ idxs)
    (hQ : 3 ≤ knightsAt ps i ∧ i ≠ h ∧ largest < knightsAt ps i)
    (huniq : ∀ j ∈ idxs,
      (3 ≤ knightsAt ps j ∧ j ≠ h ∧ largest < knightsAt ps j) → j = i) :
    armyLoop h largest idxs ps = setArmyFlag (setArmyFlag ps h false) i true := by
  induction idxs with
  | nil => simp at hi
  | cons x rest ih =>
    by_cases hx : x = i
    · subst hx
      unfold armyLoop
      rw [if_pos hQ]
      apply armyLoop_no
      intro j hj habs
      rw [knightsAt_setArmyFlag, knightsAt_setArmyFlag] at habs
      have hji : j = x := huniq j (by simp [hj]) habs
      subst hji
      exact (List.nodup_cons.mp hnd).1 hj
    · have hxnot :
          ¬(3 ≤ knightsAt ps x ∧ x ≠ h ∧ largest < knightsAt ps x) :=
        fun habs => hx (huniq x (by simp) habs)
      unfold armyLoop
      rw [if_neg hxnot]
      exact ih (List.nodup_cons.mp hnd).2
        ((List.mem_cons.mp hi).resolve_left fun he => hx he.symm)
        fun j hj hk => huniq j (by simp [hj]) hk

theorem length_bumpKnights (ps : List GPlayer) (i : Nat) :
    (bumpKnights ps i).length = ps.length := length_updAt _ _ _

theorem knightsAt_bumpKnights_self (ps : List GPlayer) (i : Nat)
    (h : i < ps.length) : knightsAt (bumpKnights ps i) i = knightsAt ps i + 1 := by
  unfold knightsAt bumpKnights
  rw [getD_updAt_self _ _ _ _ h]

theorem knightsAt_bumpKnights_ne (ps : List GPlayer) (i j : Nat) (h : j ≠ i) :
    knightsAt (bumpKnights ps i) j = knightsAt ps j := by
  unfold knightsAt bumpKnights
  rw [getD_updAt_ne _ _ _ _ _ h]

theorem armyFlagAt_bumpKnights (ps : List GPlayer) (i j : Nat) :
    armyFlagAt (bumpKnights ps i) j = armyFlagAt ps j := by
  unfold armyFlagAt bumpKnights
  by_cases hj : j = i
  · subst hj
    by_cases hlt : j < ps.length
    · rw [getD_updAt_self _ _ _ _ hlt]
    · rw [updAt_ge _ _ _ (by omega)]
  · rw [getD_updAt_ne _ _ _ _ _ hj]

/-- The complete case analysis of one knight play on a state satisfying the
invariant: the first player to reach 3 knights with the award unheld takes
it alone; the holder keeps it on the holder's own plays and on ties; a
strictly exceeding other player takes it alone; knight counts change only by
the played knight. -/
theorem playKnight_cases (ps : List GPlayer) (hInv : ArmyInv ps) (i : Nat)
    (hi : i < ps.length) :
    ((∀ j, armyFlagAt ps j = false) → 3 ≤ knightsAt ps i + 1 →
      armyFlagAt (playKnight ps i) i = true ∧
      ∀ j, j ≠ i → armyFlagAt (playKnight ps i) j = false) ∧
    ((∀ j, armyFlagAt ps j = false) → knightsAt ps i + 1 < 3 →
      ∀ j, armyFlagAt (playKnight ps i) j = armyFlagAt ps j) ∧
    (∀ h, armyFlagAt ps h = true →
      (i = h ∨ knightsAt ps i + 1 ≤ knightsAt ps h) →
      ∀ j, armyFlagAt (playKnight ps i) j = armyFlagAt ps j) ∧
    (∀ h, armyFlagAt ps h = true → i ≠ h →
      knightsAt ps h < knightsAt ps i + 1 →
      armyFlagAt (playKnight ps i) i = true ∧
      ∀ j, j ≠ i → armyFlagAt (playKnight ps i) j = false) ∧
    knightsAt (playKnight ps i) i = knightsAt ps i + 1 ∧
    (∀ j, j ≠ i → knightsAt (playKnight ps i) j = knightsAt ps j) ∧
    (playKnight ps i).length = ps.length := by
  have hlenks : (bumpKnights ps i).length = ps.length := length_bumpKnights ps i
  have kkself : knightsAt (bumpKnights ps i) i = knightsAt ps i + 1 :=
    knightsAt_bumpKnights_self ps i hi
  have kkne : ∀ j, j ≠ i →
      knightsAt (bumpKnights ps i) j = knightsAt ps j :=
    fun j hj => knightsAt_bumpKnights_ne ps i j hj
  have kf : ∀ j, armyFlagAt (bumpKnights ps i) j = armyFlagAt ps j :=
    fun j => armyFlagAt_bumpKnights ps i j
  by_cases hHold : ∃ h, armyFlagAt ps h = true
  · obtain ⟨h, hh⟩ := hHold
    have hhlt : h < ps.length := armyFlagAt_lt_of_true ps h hh
    have hbounds := hInv.2.1 h hh
    have huniq : ∀ j, armyFlagAt ps j = true → j = h :=
      fun j hj => hInv.1 j h hj hh
    have hfirst : firstFlagged (bumpKnights ps i) = some h :=
      firstFlagged_some_of _ h (by rw [kf]; exact hh)
        (fun j hj => huniq j (by rwa [kf] at hj))
    have hplay : playKnight ps i =
        armyLoop h (knightsAt (bumpKnights ps i) h)
          (List.range (bumpKnights ps i).length) (bumpKnights ps i) := by
      simp only [playKnight, checkLargestArmyPlayers, hfirst]
    by_cases hih : i = h
    · -- the holder plays a knight: no transfer
      subst hih
      have hkeep : playKnight ps i = bumpKnights ps i := by
        rw [hplay]
        apply armyLoop_no
        intro j hj habs
        rcases habs with ⟨hk3, hjne, hgt⟩
        rw [kkne j hjne, kkself] at hgt
        have := hbounds.2 j
        omega
      have hflags : ∀ j, armyFlagAt (playKnight ps i) j = armyFlagAt ps j := by
        intro j
        rw [hkeep, kf]
      refine ⟨?_, ?_, ?_, ?_, ?_, ?_, ?_⟩
      · intro hnone _
        exact absurd hh (by rw [hnone i]; simp)
      · intro hnone _
        exact absurd hh (by rw [hnone i]; simp)
      · intro h' _ _ j
        exact hflags j
      · intro h' hh' hne hgt
        have := huniq h' hh'
        omega
      · rw [hkeep, kkself]
      · intro j hj
        rw [hkeep, kkne j hj]
      · rw [hkeep, hlenks]
    · -- another player plays a knight
      have hlargest : knightsAt (bumpKnights ps i) h = knightsAt ps h :=
        kkne h fun he => hih he.symm
      by_cases hle : knightsAt ps i + 1 ≤ knightsAt ps h
      · -- no strict excess: the holder keeps the award
        have hkeep : playKnight ps i = bumpKnights ps i := by
          rw [hplay]
          apply armyLoop_no
          intro j hj habs
          rcases habs with ⟨hk3, hjne, hgt⟩
          rw [hlargest] at hgt
          by_cases hji : j = i
          · subst hji
            rw [kkself] at hgt
            omega
          · rw [kkne j hji] at hgt
            have := hbounds.2 j
            omega
        have hflags : ∀ j, armyFlagAt (playKnight ps i) j = armyFlagAt ps j := by
          intro j
          rw [hkeep, kf]
        refine ⟨?_, ?_, ?_, ?_, ?_, ?_, ?_⟩
        · intro hnone _
          exact absurd hh (by rw [hnone h]; simp)
        · intro hnone _
          exact absurd hh (by rw [hnone h]; simp)
        · intro h' _ _ j
          exact hflags j
        · intro h' hh' hne hgt
          have hh'h := huniq h' hh'
          subst hh'h
          omega
        · rw [hkeep, kkself]
        · intro j hj
          rw [hkeep, kkne j hj]
        · rw [hkeep, hlenks]
      · -- strict excess: the award transfers to player i
        have hgt : knightsAt ps h < knightsAt ps i + 1 := by omega
        have htrans : playKnight ps i =
            setArmyFlag (setArmyFlag (bumpKnights ps i) h false) i true := by
          rw [hplay]
          apply armyLoop_single
          · exact List.nodup_range _
          · exact List.mem_range.mpr (by omega)
          · refine ⟨?_, hih, ?_⟩
            · rw [kkself]
              omega
            · rw [hlargest, kkself]
              omega
          · intro j hj hQ
            rcases hQ with ⟨hk3, hjne, hgt'⟩
            by_cases hji : j = i
            · exact hji
            · rw [hlargest, kkne j hji] at hgt'
              have := hbounds.2 j
              omega
        have hflagi : armyFlagAt (playKnight ps i) i = true := by
          rw [htrans]
          exact armyFlagAt_setArmyFlag_self _ _ _
            (by rw [length_setArmyFlag, hlenks]; omega)
        have hflagother : ∀ j, j ≠ i →
            armyFlagAt (playKnight ps i) j = false := by
          intro j hj
          rw [htrans, armyFlagAt_setArmyFlag_ne _ _ _ _ hj]
          by_cases hjh : j = h
          · subst hjh
            exact armyFlagAt_setArmyFlag_self _ _ _ (by rw [hlenks]; omega)
          · rw [armyFlagAt_setArmyFlag_ne _ _ _ _ hjh, kf]
            cases hb : armyFlagAt ps j
            · rfl
            · exact absurd (huniq j hb) hjh
        refine ⟨?_, ?_, ?_, ?_, ?_, ?_, ?_⟩
        · intro hnone _
          exact absurd hh (by rw [hnone h]; simp)
        · intro hnone _
          exact absurd hh (by rw [hnone h]; simp)
        · intro h' hh' hcase j
          have hh'h := huniq h' hh'
          subst hh'h
          rcases hcase with hc | hc
          · exact absurd hc hih
          · omega
        · intro h' hh' _ _
          exact ⟨hflagi, hflagother⟩
        · rw [htrans]
          unfold knightsAt at kkself ⊢
          rw [show setArmyFlag (setArmyFlag (bumpKnights ps i) h false) i true =
            setArmyFlag (setArmyFlag (bumpKnights ps i) h false) i true from rfl]
          have e1 := knightsAt_setArmyFlag
            (setArmyFlag (bumpKnights ps i) h false) i true i
          have e2 := knightsAt_setArmyFlag (bumpKnights ps i) h false i
          unfold knightsAt at e1 e2
          rw [e1, e2]
          exact kkself
        · intro j hj
          rw [htrans, knightsAt_setArmyFlag, knightsAt_setArmyFlag, kkne j hj]
        · rw [htrans, length_setArmyFlag, length_setArmyFlag, hlenks]
  · -- nobody holds the award
    have hnone : ∀ j, armyFlagAt ps j = false := by
      intro j
      cases hb : armyFlagAt ps j
      · rfl
      · exact absurd ⟨j, hb⟩ hHold
    have hle2 : ∀ j, knightsAt ps j ≤ 2 := hInv.2.2 hnone
    have hfirst : firstFlagged (bumpKnights ps i) = none :=
      (firstFlagged_none_iff _).mpr fun j => by rw [kf]; exact hnone j
    have hplay : playKnight ps i =
        armyGrant (List.range (bumpKnights ps i).length) (bumpKnights ps i) := by
      simp only [playKnight, checkLargestArmyPlayers, hfirst]
    by_cases h3 : 3 ≤ knightsAt ps i + 1
    · -- player i reaches 3: sole grant
      have hgrant : playKnight ps i = setArmyFlag (bumpKnights ps i) i true := by
        rw [hplay]
        apply armyGrant_single
        · exact List.nodup_range _
        · exact List.mem_range.mpr (by omega)
        · rw [kkself]
          omega
        · intro j hj hk
          by_cases hji : j = i
          · exact hji
          · rw [kkne j hji] at hk
            have := hle2 j
            omega
      have hflagi : armyFlagAt (playKnight ps i) i = true := by
        rw [hgrant]
        exact armyFlagAt_setArmyFlag_self _ _ _ (by rw [hlenks]; omega)
      have hflagother : ∀ j, j ≠ i →
          armyFlagAt (playKnight ps i) j = false := by
        intro j hj
        rw [hgrant, armyFlagAt_setArmyFlag_ne _ _ _ _ hj, kf]
        exact hnone j
      refine ⟨?_, ?_, ?_, ?_, ?_, ?_, ?_⟩
      · intro _ _
        exact ⟨hflagi, hflagother⟩
      · intro _ hlt
        omega
      · intro h' hh' _ _
        exact absurd hh' (by rw [hnone h']; simp)
      · intro h' hh' _ _
        exact absurd hh' (by rw [hnone h']; simp)
      · rw [hgrant, knightsAt_setArmyFlag]
        exact kkself
      · intro j hj
        rw [hgrant, knightsAt_setArmyFlag, kkne j hj]
      · rw [hgrant, length_setArmyFlag, hlenks]
    · -- below 3: nothing changes
      have hstay : playKnight ps i = bumpKnights ps i := by
        rw [hplay]
        apply armyGrant_no
        intro j hj habs
        by_cases hji : j = i
        · subst hji
          rw [kkself] at habs
          omega
        · rw [kkne j hji] at habs
          have := hle2 j
          omega
      refine ⟨?_, ?_, ?_, ?_, ?_, ?_, ?_⟩
      · intro _ habs
        omega
      · intro _ _ j
        rw [hstay, kf]
      · intro h' hh' _ _
        exact absurd hh' (by rw [hnone h']; simp)
      · intro h' hh' _ _
        exact absurd hh' (by rw [hnone h']; simp)
      · rw [hstay]
        exact kkself
      · intro j hj
        rw [hstay, kkne j hj]
      · rw [hstay, hlenks]

/-- A knight play preserves the award invariant. -/
theorem armyInv_playKnight (ps : List GPlayer) (hInv : ArmyInv ps) (i : Nat)
    (hi : i < ps.length) : ArmyInv (playKnight ps i) := by
  obtain ⟨c1, c2, c3, c4, k5, k6, _⟩ := playKnight_cases ps hInv i hi
  by_cases hHold : ∃ h, armyFlagAt ps h = true
  · obtain ⟨h, hh⟩ := hHold
    have hbounds := hInv.2.1 h hh
    have huniq : ∀ j, armyFlagAt ps j = true → j = h :=
      fun j hj => hInv.1 j h hj hh
    by_cases hkeep : i = h ∨ knightsAt ps i + 1 ≤ knightsAt ps h
    · have hflags := c3 h hh hkeep
      refine ⟨?_, ?_, ?_⟩
      · intro a b ha hb
        rw [hflags] at ha hb
        exact hInv.1 a b ha hb
      · intro h' hh'
        rw [hflags] at hh'
        have hh'h := huniq h' hh'
        subst hh'h
        constructor
        · by_cases hih : i = h'
          · subst hih
            rw [k5]
            omega
          · rw [k6 h' fun he => hih he.symm]
            exact hbounds.1
        · intro j
          by_cases hji : j = i
          · subst hji
            rw [k5]
            by_cases hih : j = h'
            · subst hih
              rw [k5]
            · rw [k6 h' fun he => hih he.symm]
              rcases hkeep with hc | hc
              · exact absurd hc hih
              · exact hc
          · rw [k6 j hji]
            by_cases hih : i = h'
            · subst hih
              rw [k5]
              have := hbounds.2 j
              omega
            · rw [k6 h' fun he => hih he.symm]
              exact hbounds.2 j
      · intro hall
        exact absurd (hall h) (by rw [hflags, hh]; simp)
    · push_neg at hkeep
      obtain ⟨hih, hgt⟩ := hkeep
      obtain ⟨hflagi, hflagother⟩ := c4 h hh hih (by omega)
      refine ⟨?_, ?_, ?_⟩
      · intro a b ha hb
        have haeq : a = i := by
          by_contra hne
          rw [hflagother a hne] at ha
          exact Bool.noConfusion ha
        have hbeq : b = i := by
          by_contra hne
          rw [hflagother b hne] at hb
          exact Bool.noConfusion hb
        rw [haeq, hbeq]
      · intro h' hh'
        have hh'i : h' = i := by
          by_contra hne
          rw [hflagother h' hne] at hh'
          exact Bool.noConfusion hh'
        subst hh'i
        constructor
        · rw [k5]
          have := hbounds.1
          omega
        · intro j
          by_cases hji : j = h'
          · subst hji
            rw [k5]
          · rw [k6 j hji]
            have := hbounds.2 j
            omega
      · intro hall
        exact absurd (hall i) (by rw [hflagi]; simp)
  · have hnone : ∀ j, armyFlagAt ps j = false := by
      intro j
      cases hb : armyFlagAt ps j
      · rfl
      · exact absurd ⟨j, hb⟩ hHold
    have hle2 : ∀ j, knightsAt ps j ≤ 2 := hInv.2.2 hnone
    by_cases h3 : 3 ≤ knightsAt ps i + 1
    · obtain ⟨hflagi, hflagother⟩ := c1 hnone h3
      refine ⟨?_, ?_, ?_⟩
      · intro a b ha hb
        have haeq : a = i := by
          by_contra hne
          rw [hflagother a hne] at ha
          exact Bool.noConfusion ha
        have hbeq : b = i := by
          by_contra hne
          rw [hflagother b hne] at hb
          exact Bool.noConfusion hb
        rw [haeq, hbeq]
      · intro h' hh'
        have hh'i : h' = i := by
          by_contra hne
          rw [hflagother h' hne] at hh'
          exact Bool.noConfusion hh'
        subst hh'i
        constructor
        · rw [k5]
          omega
        · intro j
          by_cases hji : j = h'
          · subst hji
            rw [k5]
          · rw [k6 j hji]
            have h1 := hle2 j
            have h2 := hle2 h'
            omega
      · intro hall
        exact absurd (hall i) (by rw [hflagi]; simp)
    · have hflags := c2 hnone (by omega)
      refine ⟨?_, ?_, ?_⟩
      · intro a b ha hb
        rw [hflags a, hnone a] at ha
        exact Bool.noConfusion ha
      · intro h' hh'
        rw [hflags h', hnone h'] at hh'
        exact Bool.noConfusion hh'
      · intro _ j
        by_cases hji : j = i
        · subst hji
          rw [k5]
          omega
        · rw [k6 j hji]
          exact hle2 j

/-- Every reachable player list satisfies the award invariant. -/
theorem armyInv_of_reachable (ps : List GPlayer) (h : ArmyReachable ps) :
    ArmyInv ps := by
  induction h with
  | init ps h0 =>
    have hflags : ∀ j, armyFlagAt ps j = false := by
      intro j
      by_cases hj : j < ps.length
      · have hmem : ps.getD j default ∈ ps := by
          rw [List.getD_eq_getElem ps default hj]
          exact List.getElem_mem hj
        exact (h0 _ hmem).2
      · exact armyFlagAt_ge ps j (by omega)
    have hknights : ∀ j, knightsAt ps j = 0 := by
      intro j
      by_cases hj : j < ps.length
      · have hmem : ps.getD j default ∈ ps := by
          rw [List.getD_eq_getElem ps default hj]
          exact List.getElem_mem hj
        exact (h0 _ hmem).1
      · unfold knightsAt
        rw [List.getD_eq_default _ _ (by omega)]
        rfl
    refine ⟨?_, ?_, ?_⟩
    · intro a b ha _
      rw [hflags a] at ha
      exact Bool.noConfusion ha
    · intro h' hh'
      rw [hflags h'] at hh'
      exact Bool.noConfusion hh'
    · intro _ j
      rw [hknights j]
      omega
  | step ps i _ hi ih => exact armyInv_playKnight ps ih i hi

/-- C7: confirmed. On every reachable state: when nobody holds Largest Army
and a player's knight play brings them to 3 or more knights, that player
becomes the sole holder; when a holder exists, a play by the holder or one
that only ties the holder's count changes no flags (the holder keeps the
award); and a play by another player that strictly exceeds the holder's
count makes that player the sole holder. -/
theorem largestArmy_first_to_three_and_strict_transfer (ps : List GPlayer)
    (hre : ArmyReachable ps) (i : Nat) (hi : i < ps.length) :
    ((∀ j, armyFlagAt ps j = false) → 3 ≤ knightsAt ps i + 1 →
      armyFlagAt (playKnight ps i) i = true ∧
      ∀ j, j ≠ i → armyFlagAt (playKnight ps i) j = false) ∧
    (∀ h, armyFlagAt ps h = true →
      (i = h ∨ knightsAt ps i + 1 ≤ knightsAt ps h) →
      ∀ j, armyFlagAt (playKnight ps i) j = armyFlagAt ps j) ∧
    (∀ h, armyFlagAt ps h = true → i ≠ h →
      knightsAt ps h < knightsAt ps i + 1 →
      armyFlagAt (playKnight ps i) i = true ∧
      ∀ j, j ≠ i → armyFlagAt (playKnight ps i) j = false) := by
  obtain ⟨c1, _, c3, c4, _, _, _⟩ :=
    playKnight_cases ps (armyInv_of_reachable ps hre) i hi
  exact ⟨c1, c3, c4⟩

/-- Witness for `largestArmy_first_to_three_and_strict_transfer`: after
player 0 plays 3 knights and player 1 plays 2, player 0 holds the award with
3 knights; player 1's third knight only ties, so no flag changes; player 1's
fourth knight strictly exceeds and transfers the award. -/
theorem largestArmy_witness :
    armyFlagAt c7TieState 0 = true ∧ armyFlagAt c7TieState 1 = false ∧
    knightsAt c7TieState 0 = 3 ∧ knightsAt c7TieState 1 = 2 ∧
    (∀ j, armyFlagAt (playKnight c7TieState 1) j = armyFlagAt c7TieState j) ∧
    armyFlagAt (playKnight (playKnight c7TieState 1) 1) 1 = true ∧
    armyFlagAt (playKnight (playKnight c7TieState 1) 1) 0 = false := by
  have r0 : ArmyReachable ([{}, {}] : List GPlayer) :=
    ArmyReachable.init _ (by decide)
  have r1 := ArmyReachable.step _ 0 r0 (by decide)
  have r2 := ArmyReachable.step _ 0 r1 (by decide)
  have r3 := ArmyReachable.step _ 0 r2 (by decide)
  have r4 := ArmyReachable.step _ 1 r3 (by decide)
  have r5 : ArmyReachable c7TieState := ArmyReachable.step _ 1 r4 (by decide)
  have r6 : ArmyReachable (playKnight c7TieState 1) :=
    ArmyReachable.step _ 1 r5 (by decide)
  refine ⟨by decide, by decide, by decide, by decide, ?_, ?_, ?_⟩
  · exact (largestArmy_first_to_three_and_strict_transfer c7TieState r5 1
      (by decide)).2.1 0 (by decide) (Or.inr (by decide))
  · exact ((largestArmy_first_to_three_and_strict_transfer _ r6 1
      (by decide)).2.2 0 (by decide) (by decide) (by decide)).1
  · exact ((largestArmy_first_to_three_and_strict_transfer _ r6 1
      (by decide)).2.2 0 (by decide) (by decide) (by decide)).2 0 (by decide)

end Catan
